import Mathlib

/-!
# Leafora marketplace: the view glue layer of `static/js/main.js`

A shallow embedding of the page script.  The document is a record of the
elements the script looks up (by id or by selector); the script's effects
on the host (alerts, console, network, navigation, timers) are logged in
the page state.  Host built-ins the script calls are modelled after their
standards: `String.prototype.includes` (ECMAScript `StringIndexOf`),
`URLSearchParams.prototype.toString` (the URL standard's urlencoded
serializer), `HTMLFormElement.reset` (the HTML reset algorithm) and
`setTimeout` (a timer queue over a clock in milliseconds; a callback runs
no earlier than its timer is due, and how much later is a parameter `lat`
of the timer loop).  `String.prototype.toLowerCase` is a
parameter `lower` of the handlers that call it.  The promote and delete
buttons (lines 68-80) only raise dialogs and are left out.

JavaScript strings are modelled by Lean strings (sequences of Unicode
scalar values), so strings holding lone surrogates are outside the model.
-/

namespace Leafora

/-! ## Host string built-ins -/

/-- ECMAScript `StringIndexOf(string, searchValue, fromIndex)`: the least
index `i` with `fromIndex ≤ i ≤ len - searchLen` at which `searchValue`
occurs in `string`, or `none` (the standard's `-1`). -/
def stringIndexOf (string searchValue : List Char) (fromIndex : Nat) : Option Nat :=
  (List.range (string.length + 1)).find? (fun i =>
    decide (fromIndex ≤ i) && decide (i + searchValue.length ≤ string.length)
      && ((string.drop i).take searchValue.length == searchValue))

/-- The method `String.prototype.includes(searchString)` with the default
position 0. -/
def includes (s searchString : String) : Bool :=
  (stringIndexOf s.data searchString.data 0).isSome

/-- An ASCII-only lower-casing, used to instantiate the `lower` parameter
on concrete inputs. -/
def asciiLower (s : String) : String := ⟨s.data.map Char.toLower⟩

/-! ## URL-encoded serialisation (`URLSearchParams.prototype.toString`) -/

/-- UTF-8 encoding of one scalar value, as a list of byte values. -/
def utf8Encode (c : Char) : List Nat :=
  let v := c.toNat
  if v < 0x80 then [v]
  else if v < 0x800 then [0xC0 + v / 64, 0x80 + v % 64]
  else if v < 0x10000 then [0xE0 + v / 4096, 0x80 + (v / 64) % 64, 0x80 + v % 64]
  else [0xF0 + v / 262144, 0x80 + (v / 4096) % 64, 0x80 + (v / 64) % 64, 0x80 + v % 64]

/-- One upper-case hexadecimal digit. -/
def hexDigit (n : Nat) : Char :=
  if n < 10 then Char.ofNat (48 + n) else Char.ofNat (55 + n)

/-- Bytes left as they are by the application/x-www-form-urlencoded
percent-encode set: ASCII alphanumerics and `*`, `-`, `.`, `_`. -/
def urlencodedSafe (b : Nat) : Bool :=
  (48 ≤ b && b ≤ 57) || (65 ≤ b && b ≤ 90) || (97 ≤ b && b ≤ 122)
    || b == 42 || b == 45 || b == 46 || b == 95

/-- Percent-encoding of one byte with space as plus. -/
def urlencodeByte (b : Nat) : List Char :=
  if b == 32 then ['+']
  else if urlencodedSafe b then [Char.ofNat b]
  else ['%', hexDigit (b / 16), hexDigit (b % 16)]

/-- Percent-encode a string after encoding it as UTF-8. -/
def urlencode (s : String) : String :=
  ⟨(s.data.flatMap utf8Encode).flatMap urlencodeByte⟩

/-- The urlencoded serializer's loop: for each tuple, append `&` when the
output is not empty, then `name=value`. -/
def serializeLoop (output : String) : List (String × String) → String
  | [] => output
  | (name, value) :: rest =>
      let output := if output ≠ "" then output ++ "&" else output
      serializeLoop (output ++ urlencode name ++ "=" ++ urlencode value) rest

/-- The expression `new URLSearchParams(entries).toString()`. -/
def urlSearchParamsToString (entries : List (String × String)) : String :=
  serializeLoop "" entries

/-! ## The document -/

/-- A table row matched by a filter's selector.  `renderedText` is the text
of the row as rendered (cells separated by tabs), `textContent` the text
content of its descendants (source white space kept, no tab between cells)
and `display` its `style.display`. -/
structure Row where
  renderedText : String
  textContent : String
  display : String
deriving DecidableEq

/-- The getter `row.innerText`: the rendered text of a row that is being
rendered, and the text content of a row that is not, which here is a row
whose `style.display` is `"none"`. -/
def Row.innerText (row : Row) : String :=
  if row.display = "none" then row.textContent else row.renderedText

/-- The range input `#priceRange`. -/
structure RangeInput where
  value : String
deriving DecidableEq

/-- The label `#priceValue`. -/
structure Label where
  textContent : String
deriving DecidableEq

/-- An element of class `order-row`; `receipt` is `dataset.receipt`,
`none` when the row has no `data-receipt` attribute. -/
structure OrderRow where
  receipt : Option String
deriving DecidableEq

/-- A resettable field of a form: its default value (the markup's
`value`) and its current value. -/
structure Field where
  name : String
  defaultValue : String
  value : String
deriving DecidableEq

/-- A search box (`#userSearch`, `#bookSearch`). -/
structure SearchBox where
  value : String
deriving DecidableEq

/-- An element of class `flash`. -/
structure Flash where
  attached : Bool
  opacity : String
  transform : String
  transition : String
deriving DecidableEq

/-- An element looked up by id whose markup is replaced as a whole. -/
structure Container where
  id : String
  innerHTML : String
deriving DecidableEq

/-- The elements of the document the script looks up. -/
structure Dom where
  priceRange : Option RangeInput
  priceValue : Option Label
  orderRows : List OrderRow
  contactForm : Option (List Field)
  userSearch : Option SearchBox
  adminRows : List Row
  bookSearch : Option SearchBox
  bookRows : List Row
  flashes : List Flash
  filterForm : Option (List (String × String))
  containers : List Container
deriving DecidableEq

/-! ## Run-time state of the page -/

/-- A listener the script binds, named by the element and event it is
bound to. -/
inductive Listener
  | priceInput
  | orderClick (i : Nat)
  | contactSubmit
  | userFilter
  | bookFilter
  | filterSubmit
deriving DecidableEq

/-- The promise chain attached to a pending fetch. -/
inductive Continuation
  | component (id : String)
  | booksGrid
deriving DecidableEq

/-- How a fetch chain settles: `fetch` and `res.text()` both resolve, with
the body text, or one of them rejects with an error. -/
inductive FetchOutcome
  | body (text : String)
  | failed (err : String)
deriving DecidableEq

/-- A network request issued by the page. -/
structure Request where
  method : String
  url : String
deriving DecidableEq

/-- A timer callback of the flash auto-dismiss: the outer callback of
flash `i` (fade) and the inner one (remove). -/
inductive Task
  | fade (i : Nat)
  | remove (i : Nat)
deriving DecidableEq

/-- A pending timer. -/
structure Timer where
  due : Nat
  task : Task
deriving DecidableEq

/-- The page: the document and what the host records of the script's
effects.  `defaultPrevented` is the canceled flag of the event being
dispatched; `uncaught` collects errors no handler caught. -/
structure Page extends Dom where
  listeners : List Listener
  location : String
  alerts : List String
  console : List String
  uncaught : List String
  requests : List Request
  pending : List Continuation
  nativeSubmits : List String
  defaultPrevented : Bool
  now : Nat
  timers : List Timer
deriving DecidableEq

/-- The page as the browser hands it to the script: the parsed document
at `location`, no listener, nothing logged, the clock at 0. -/
def Page.fresh (dom : Dom) (location : String) : Page :=
  { dom with
    listeners := [], location := location, alerts := [], console := [],
    uncaught := [], requests := [], pending := [], nativeSubmits := [],
    defaultPrevented := false, now := 0, timers := [] }

/-- Replace the element at index `i` by `f` of it. -/
def updateAt {α : Type} (f : α → α) : Nat → List α → List α
  | _, [] => []
  | 0, a :: as => f a :: as
  | i + 1, a :: as => a :: updateAt f i as

/-- The call `document.getElementById(id)` among the containers: the first element
with that id. -/
def getElementById (id : String) (p : Page) : Option Container :=
  p.containers.find? (fun c => c.id == id)

/-- Set `innerHTML` of the first container with the given id. -/
def setInnerHTML (id html : String) : List Container → List Container
  | [] => []
  | c :: cs => if c.id == id then { c with innerHTML := html } :: cs
               else c :: setInnerHTML id html cs

/-- Run the handler once for every bound copy of listener `l`. -/
def dispatch (l : Listener) (handler : Page → Page) (p : Page) : Page :=
  (p.listeners.filter (fun k => k == l)).foldl (fun q _ => handler q) p

/-- Dispatch a cancelable `submit` event of form `formId`; the form is
submitted natively unless a listener called `preventDefault`. -/
def submitForm (l : Listener) (formId : String) (handler : Page → Page) (p : Page) : Page :=
  let q := dispatch l handler { p with defaultPrevented := false }
  if q.defaultPrevented then q else { q with nativeSubmits := q.nativeSubmits ++ [formId] }

/-- JavaScript truthiness of `row.dataset.receipt`: `undefined` and the
empty string are falsy. -/
def truthy : Option String → Bool
  | none => false
  | some s => s != ""

/-! ## main.js, lines 7-14: `loadComponent` -/

/-- The call `loadComponent(id, file)`: `fetch(file)` is issued and its
chain left pending. -/
def loadComponent (id file : String) (p : Page) : Page :=
  { p with requests := p.requests ++ [⟨"GET", file⟩],
           pending := p.pending ++ [Continuation.component id] }

/-! ## main.js, lines 21-34: live price range update -/

/-- The `input` listener of `#priceRange` (lines 30-32). -/
def priceInputHandler (p : Page) : Page :=
  match p.priceRange, p.priceValue with
  | some priceRange, some priceValue =>
      { p with priceValue := some { priceValue with textContent := priceRange.value ++ " BDT" } }
  | _, _ => p

/-- The first DOMContentLoaded handler (lines 21-34). -/
def onLoadPrice (p : Page) : Page :=
  match p.priceRange, p.priceValue with
  | some priceRange, some priceValue =>
      { p with priceValue := some { priceValue with textContent := priceRange.value ++ " BDT" },
               listeners := p.listeners ++ [Listener.priceInput] }
  | _, _ => p

/-- The user moves the slider to the value `v`: the input's value changes
and an `input` event is dispatched on it. -/
def inputPriceRange (v : String) (p : Page) : Page :=
  match p.priceRange with
  | some priceRange =>
      dispatch Listener.priceInput priceInputHandler
        { p with priceRange := some { priceRange with value := v } }
  | none => p

/-! ## main.js, lines 40-49: open receipt on order click -/

/-- The `click` listener of the `i`-th order row (lines 42-47). -/
def orderClickHandler (i : Nat) (p : Page) : Page :=
  match p.orderRows.get? i with
  | some row =>
      let receiptURL := row.receipt
      if truthy receiptURL then { p with location := receiptURL.getD "" } else p
  | none => p

/-- The second DOMContentLoaded handler (lines 40-49). -/
def onLoadOrderRows (p : Page) : Page :=
  { p with listeners := p.listeners ++ (List.range p.orderRows.length).map Listener.orderClick }

/-- The user clicks the `i`-th order row. -/
def clickOrderRow (i : Nat) (p : Page) : Page :=
  if i < p.orderRows.length then dispatch (Listener.orderClick i) (orderClickHandler i) p else p

/-! ## main.js, lines 56-63: contact form dummy submit -/

/-- The method `HTMLFormElement.reset()`: every field goes back to its
default value. -/
def resetForm (fields : List Field) : List Field :=
  fields.map (fun f => { f with value := f.defaultValue })

/-- The `submit` listener of `#contactForm` (lines 58-62). -/
def contactSubmitHandler (p : Page) : Page :=
  let p := { p with defaultPrevented := true }
  let p := { p with alerts := p.alerts ++ ["Message sent! (frontend only)"] }
  { p with contactForm := p.contactForm.map resetForm }

/-- Lines 56-63 at script evaluation. -/
def bindContactForm (p : Page) : Page :=
  match p.contactForm with
  | some _ => { p with listeners := p.listeners ++ [Listener.contactSubmit] }
  | none => p

/-- The user submits the contact form. -/
def submitContactForm (p : Page) : Page :=
  match p.contactForm with
  | some _ => submitForm Listener.contactSubmit "contactForm" contactSubmitHandler p
  | none => p

/-! ## main.js, lines 85-108: user and book table filters -/

/-- The body of both filter listeners' `forEach`: each row is shown when
the lower-cased text its `innerText` returns includes the filter, hidden
otherwise. -/
def filterRows (lower : String → String) (filter : String) (rows : List Row) : List Row :=
  rows.map (fun row =>
    let text := lower row.innerText
    { row with display := if includes text filter then "" else "none" })

/-- The `input` listener of `#userSearch` (lines 87-93). -/
def userFilterHandler (lower : String → String) (p : Page) : Page :=
  match p.userSearch with
  | some userSearch =>
      let filter := lower userSearch.value
      { p with adminRows := filterRows lower filter p.adminRows }
  | none => p

/-- The `input` listener of `#bookSearch` (lines 101-107). -/
def bookFilterHandler (lower : String → String) (p : Page) : Page :=
  match p.bookSearch with
  | some bookSearch =>
      let filter := lower bookSearch.value
      { p with bookRows := filterRows lower filter p.bookRows }
  | none => p

/-- Lines 85-94 at script evaluation. -/
def bindUserSearch (p : Page) : Page :=
  match p.userSearch with
  | some _ => { p with listeners := p.listeners ++ [Listener.userFilter] }
  | none => p

/-- Lines 99-108 at script evaluation. -/
def bindBookSearch (p : Page) : Page :=
  match p.bookSearch with
  | some _ => { p with listeners := p.listeners ++ [Listener.bookFilter] }
  | none => p

/-- The user edits `#userSearch` to hold `s`: the value changes and an
`input` event is dispatched on the box. -/
def inputUserSearch (lower : String → String) (s : String) (p : Page) : Page :=
  match p.userSearch with
  | some userSearch =>
      dispatch Listener.userFilter (userFilterHandler lower)
        { p with userSearch := some { userSearch with value := s } }
  | none => p

/-- The user edits `#bookSearch` to hold `s`. -/
def inputBookSearch (lower : String → String) (s : String) (p : Page) : Page :=
  match p.bookSearch with
  | some bookSearch =>
      dispatch Listener.bookFilter (bookFilterHandler lower)
        { p with bookSearch := some { bookSearch with value := s } }
  | none => p

/-! ## main.js, lines 114-128: flash message auto dismiss -/

/-- Queue a timer behind those due no later than it. -/
def insertTimer (t : Timer) : List Timer → List Timer
  | [] => [t]
  | u :: rest => if u.due ≤ t.due then u :: insertTimer t rest else t :: u :: rest

/-- The call `setTimeout(task, delay)`. -/
def setTimeout (task : Task) (delay : Nat) (p : Page) : Page :=
  { p with timers := insertTimer ⟨p.now + delay, task⟩ p.timers }

/-- The style the outer callback gives a flash (lines 119-121). -/
def fadeStyle (flash : Flash) : Flash :=
  { flash with opacity := "0", transform := "translateX(40px)", transition := "all 0.4s ease" }

/-- The call `flash.remove()`. -/
def detach (flash : Flash) : Flash :=
  { flash with attached := false }

/-- The two timer callbacks (lines 118-126 and 123-125). -/
def runTask : Task → Page → Page
  | Task.fade i, p =>
      setTimeout (Task.remove i) 400 { p with flashes := updateAt fadeStyle i p.flashes }
  | Task.remove i, p => { p with flashes := updateAt detach i p.flashes }

/-- The call `document.querySelectorAll(".flash")`: the flash elements in the
document, by index. -/
def queryFlashes (p : Page) : List Nat :=
  (List.range p.flashes.length).filter (fun i => (p.flashes.get? i).any (fun f => f.attached))

/-- The third DOMContentLoaded handler (lines 114-128). -/
def onLoadFlashes (p : Page) : Page :=
  (queryFlashes p).foldl (fun q i => setTimeout (Task.fade i) 1500 q) p

/-- How many callbacks a task can cause to run, itself included. -/
def Task.weight : Task → Nat
  | Task.fade _ => 2
  | Task.remove _ => 1

/-- The time at which the host runs a timer's callback.  The host
guarantees only that a callback does not run before its timer is due; the
latency `lat` says how much later each callback runs. -/
def runAt (lat : Task → Nat) (timer : Timer) : Nat :=
  timer.due + lat timer.task

/-- The pending timer whose callback runs first (the earlier one in the
queue when two run at the same time). -/
def earliest (lat : Task → Nat) : List Timer → Option Timer
  | [] => none
  | timer :: rest =>
      match earliest lat rest with
      | none => some timer
      | some u => if runAt lat timer ≤ runAt lat u then some timer else some u

/-- Total weight of the pending timers: a bound on the callbacks still to
run. -/
def weightSum (timers : List Timer) : Nat :=
  (timers.map (fun x => x.task.weight)).sum

/-- The timer loop: while the next callback runs at `t` or before, move
the clock to the time it runs at, take its timer off the queue and run it. -/
def runDue (lat : Task → Nat) (t : Nat) : Nat → Page → Page
  | 0, p => p
  | fuel + 1, p =>
      match earliest lat p.timers with
      | none => p
      | some timer =>
          if runAt lat timer ≤ t then
            runDue lat t fuel
              (runTask timer.task
                { p with now := max p.now (runAt lat timer), timers := p.timers.erase timer })
          else p

/-- The page at time `t`: every callback that runs at `t` or before has
run. -/
def advanceTo (lat : Task → Nat) (t : Nat) (p : Page) : Page :=
  let q := runDue lat t (weightSum p.timers) p
  { q with now := max q.now t }

/-- A host that runs every callback as soon as its timer is due. -/
def onTime : Task → Nat :=
  fun _ => 0

/-- A host that runs the outer callback of flash 1 two milliseconds after
its timer is due, and every other callback on time. -/
def lateFade : Task → Nat :=
  fun task => if task = Task.fade 1 then 2 else 0

/-- Whether a timer is the outer (fade) timer of flash `i`. -/
def isFade (i : Nat) (timer : Timer) : Bool :=
  timer.task == Task.fade i

/-- Whether a timer is the inner (remove) timer of flash `i`. -/
def isRemove (i : Nat) (timer : Timer) : Bool :=
  timer.task == Task.remove i

/-- Where flash `i` stands while the clock runs to `t`: its outer timer is
pending and the flash untouched; or the outer callback has run (at 1500 ms
plus its latency, no later than `t`), the flash is faded and its inner
timer, due 400 ms later, is pending; or the inner callback has run too (no
later than `t`) and the flash is removed. -/
def FlashStage (lat : Task → Nat) (i : Nat) (flash : Flash) (t : Nat) (p : Page) : Prop :=
  (p.timers.filter (isFade i) = [⟨1500, Task.fade i⟩] ∧ p.timers.filter (isRemove i) = [] ∧
    p.flashes.get? i = some flash) ∨
  (p.timers.filter (isFade i) = [] ∧
    p.timers.filter (isRemove i) = [⟨1500 + lat (Task.fade i) + 400, Task.remove i⟩] ∧
    p.flashes.get? i = some (fadeStyle flash) ∧ 1500 + lat (Task.fade i) ≤ t) ∨
  (p.timers.filter (isFade i) = [] ∧ p.timers.filter (isRemove i) = [] ∧
    p.flashes.get? i = some (detach (fadeStyle flash)) ∧
    1500 + lat (Task.fade i) + 400 + lat (Task.remove i) ≤ t)

/-! ## main.js, lines 131-150: AJAX filter form -/

/-- The `submit` listener of `#filterForm` (lines 136-148), up to the call
of `fetch`. -/
def filterSubmitHandler (p : Page) : Page :=
  let p := { p with defaultPrevented := true }
  match p.filterForm with
  | some formData =>
      let queryString := urlSearchParamsToString formData
      { p with requests := p.requests ++ [⟨"GET", "/books_ajax?" ++ queryString⟩],
               pending := p.pending ++ [Continuation.booksGrid] }
  | none => p

/-- The fourth DOMContentLoaded handler (lines 131-150). -/
def onLoadFilterForm (p : Page) : Page :=
  match p.filterForm, getElementById "booksGrid" p with
  | some _, some _ => { p with listeners := p.listeners ++ [Listener.filterSubmit] }
  | _, _ => p

/-- The user submits the filter form. -/
def submitFilterForm (p : Page) : Page :=
  match p.filterForm with
  | some _ => submitForm Listener.filterSubmit "filterForm" filterSubmitHandler p
  | none => p

/-! ## Settling a fetch -/

/-- Run the promise chain `k` on the outcome of its fetch.  For
`loadComponent` (lines 9-13) the element is looked up when the body
arrives, and a rejection has no handler; for the filter form (lines
143-147) the body goes into `booksGrid` and a rejection is logged.
`updateAuthButton` is defined outside main.js. -/
def settle (updateAuthButton : Page → Page) : Continuation → FetchOutcome → Page → Page
  | Continuation.component id, FetchOutcome.body data, p =>
      match getElementById id p with
      | some _ => updateAuthButton { p with containers := setInnerHTML id data p.containers }
      | none =>
          { p with uncaught := p.uncaught ++
              ["TypeError: Cannot set properties of null (setting 'innerHTML')"] }
  | Continuation.component _, FetchOutcome.failed err, p =>
      { p with uncaught := p.uncaught ++ [err] }
  | Continuation.booksGrid, FetchOutcome.body html, p =>
      { p with containers := setInnerHTML "booksGrid" html p.containers }
  | Continuation.booksGrid, FetchOutcome.failed err, p =>
      { p with console := p.console ++ [err] }

/-- The `n`-th pending fetch settles with `outcome`. -/
def settleFetch (updateAuthButton : Page → Page) (n : Nat) (outcome : FetchOutcome)
    (p : Page) : Page :=
  match p.pending.get? n with
  | some k => settle updateAuthButton k outcome { p with pending := p.pending.eraseIdx n }
  | none => p

/-! ## The script as a whole -/

/-- Evaluation of the script's top level: the listeners bound outside
DOMContentLoaded handlers (lines 56-63, 85-94, 99-108). -/
def evalScript (p : Page) : Page :=
  bindBookSearch (bindUserSearch (bindContactForm p))

/-- DOMContentLoaded: the four handlers in the order they were added. -/
def domContentLoaded (p : Page) : Page :=
  onLoadFilterForm (onLoadFlashes (onLoadOrderRows (onLoadPrice p)))

/-- A page load: the script is evaluated on the parsed document, then
DOMContentLoaded fires, at time 0. -/
def boot (dom : Dom) (location : String) : Page :=
  domContentLoaded (evalScript (Page.fresh dom location))

/-! ## Sequences of user input, and the filters' specification -/

/-- The user edits `#userSearch` several times in a row. -/
def typeUserSearch (lower : String → String) (inputs : List String) (p : Page) : Page :=
  inputs.foldl (fun q s => inputUserSearch lower s q) p

/-- The user edits `#bookSearch` several times in a row. -/
def typeBookSearch (lower : String → String) (inputs : List String) (p : Page) : Page :=
  inputs.foldl (fun q s => inputBookSearch lower s q) p

/-- The user moves the slider several times in a row. -/
def moveSlider (values : List String) (p : Page) : Page :=
  values.foldl (fun q v => inputPriceRange v q) p

/-- The filter's contract for a row text `t`, the search text `s` and the
display style the row ends with: the row is visible (display `""`) exactly
when the lower-cased `t` contains the lower-cased `s` as a substring, and
has display `"none"` otherwise. -/
def ShownIff (lower : String → String) (s t display : String) : Prop :=
  (display = "" ↔ (lower s).data <:+: (lower t).data) ∧
  (¬ (lower s).data <:+: (lower t).data → display = "none")

/-- What one run of a filter handler on the search text `s` does to a row:
the row keeps its texts, and its display style meets the contract for the
text `innerText` returned when the handler read the row. -/
def Filtered (lower : String → String) (s : String) (before after : Row) : Prop :=
  after.renderedText = before.renderedText ∧ after.textContent = before.textContent ∧
  ShownIff lower s before.innerText after.display

/-- A document exercising every feature of the script. -/
def demoDom : Dom :=
  { priceRange := some ⟨"500"⟩, priceValue := some ⟨""⟩,
    orderRows := [⟨some "/orders/42/receipt"⟩, ⟨none⟩, ⟨some ""⟩],
    contactForm := some [⟨"name", "", "Ann"⟩, ⟨"email", "me@x.org", "ann@x.org"⟩],
    userSearch := some ⟨""⟩,
    adminRows := [⟨"Alice\tAdmin", "AliceAdmin", ""⟩, ⟨"Bob\tUser", "BobUser", ""⟩],
    bookSearch := some ⟨""⟩, bookRows := [⟨"Dune", "Dune", ""⟩, ⟨"Emma", "Emma", ""⟩],
    flashes := [⟨true, "", "", ""⟩, ⟨true, "", "", ""⟩],
    filterForm := some [("genre", "fiction"), ("maxPrice", "500")],
    containers := [⟨"booksGrid", "<p>old</p>"⟩] }

/-- A document holding none of the elements the script looks up. -/
def emptyDom : Dom :=
  { priceRange := none, priceValue := none, orderRows := [], contactForm := none,
    userSearch := none, adminRows := [], bookSearch := none, bookRows := [],
    flashes := [], filterForm := none, containers := [] }

/-- A document whose admin table holds two rows differing only in letter
case. -/
def caseDom : Dom :=
  { demoDom with
    adminRows := [⟨"Alice", "Alice", ""⟩, ⟨"ALICE", "ALICE", ""⟩, ⟨"Bob", "Bob", ""⟩] }

/-! # Theorems -/

/-! ## Host built-ins -/

theorem includes_iff (t s : String) : includes t s = true ↔ s.data <:+: t.data := by
  unfold includes stringIndexOf
  rw [List.find?_isSome]
  constructor
  · rintro ⟨i, _, hi⟩
    simp only [Nat.zero_le, decide_True, Bool.true_and, Bool.and_eq_true, decide_eq_true_eq,
      beq_iff_eq] at hi
    obtain ⟨_, h⟩ := hi
    refine ⟨t.data.take i, (t.data.drop i).drop s.data.length, ?_⟩
    have h2 := List.take_append_drop s.data.length (t.data.drop i)
    rw [h] at h2
    rw [List.append_assoc, h2, List.take_append_drop]
  · rintro ⟨a, b, h⟩
    refine ⟨a.length, ?_, ?_⟩
    · rw [List.mem_range, ← h]
      simp only [List.length_append]
      omega
    · simp only [Nat.zero_le, decide_True, Bool.true_and, Bool.and_eq_true, decide_eq_true_eq,
        beq_iff_eq]
      constructor
      · rw [← h]; simp only [List.length_append]; omega
      · rw [← h, List.append_assoc, List.drop_left, List.take_left]

/-! ## The page after a load -/

theorem bindContactForm_eq (p : Page) : bindContactForm p =
    { p with listeners := p.listeners ++
        (if p.contactForm.isSome then [Listener.contactSubmit] else []) } := by
  unfold bindContactForm
  cases h : p.contactForm <;> simp

theorem bindUserSearch_eq (p : Page) : bindUserSearch p =
    { p with listeners := p.listeners ++
        (if p.userSearch.isSome then [Listener.userFilter] else []) } := by
  unfold bindUserSearch
  cases h : p.userSearch <;> simp

theorem bindBookSearch_eq (p : Page) : bindBookSearch p =
    { p with listeners := p.listeners ++
        (if p.bookSearch.isSome then [Listener.bookFilter] else []) } := by
  unfold bindBookSearch
  cases h : p.bookSearch <;> simp

theorem insertTimer_append (t : Timer) (ts : List Timer) (h : ∀ u ∈ ts, u.due ≤ t.due) :
    insertTimer t ts = ts ++ [t] := by
  induction ts with
  | nil => rfl
  | cons u rest ih =>
      have hu : u.due ≤ t.due := h u (List.mem_cons_self _ _)
      simp only [insertTimer, hu, if_true, List.cons_append]
      rw [ih (fun v hv => h v (List.mem_cons_of_mem _ hv))]

theorem foldl_setTimeout (task : Nat → Task) (delay : Nat) (l : List Nat) (p : Page) :
    l.foldl (fun q i => setTimeout (task i) delay q) p =
      { p with timers :=
          l.foldl (fun ts i => insertTimer ⟨p.now + delay, task i⟩ ts) p.timers } := by
  induction l generalizing p with
  | nil => rfl
  | cons i rest ih =>
      rw [List.foldl_cons, ih]
      rfl

theorem foldl_insertTimer (d : Nat) (task : Nat → Task) (l : List Nat) (ts : List Timer)
    (h : ∀ u ∈ ts, u.due ≤ d) :
    l.foldl (fun ts i => insertTimer ⟨d, task i⟩ ts) ts = ts ++ l.map (fun i => ⟨d, task i⟩) := by
  induction l generalizing ts with
  | nil => simp
  | cons i rest ih =>
      simp only [List.foldl_cons, List.map_cons]
      rw [insertTimer_append _ _ h, ih]
      · simp
      · intro u hu
        rcases List.mem_append.1 hu with hu | hu
        · exact h u hu
        · simp only [List.mem_singleton] at hu
          subst hu
          exact Nat.le_refl _

theorem onLoadFlashes_eq (p : Page) (h : ∀ u ∈ p.timers, u.due ≤ p.now + 1500) :
    onLoadFlashes p =
      { p with timers := p.timers ++ (queryFlashes p).map (fun i => ⟨p.now + 1500, Task.fade i⟩) } := by
  unfold onLoadFlashes
  rw [foldl_setTimeout, foldl_insertTimer _ _ _ _ h]

theorem boot_eq (dom : Dom) (loc : String) : boot dom loc =
    { toDom :=
        { dom with priceValue :=
            match dom.priceRange, dom.priceValue with
            | some priceRange, some priceValue =>
                some { priceValue with textContent := priceRange.value ++ " BDT" }
            | _, priceValue => priceValue },
      listeners :=
        (if dom.contactForm.isSome then [Listener.contactSubmit] else [])
        ++ (if dom.userSearch.isSome then [Listener.userFilter] else [])
        ++ (if dom.bookSearch.isSome then [Listener.bookFilter] else [])
        ++ (if dom.priceRange.isSome ∧ dom.priceValue.isSome then [Listener.priceInput] else [])
        ++ (List.range dom.orderRows.length).map Listener.orderClick
        ++ (if dom.filterForm.isSome ∧ (dom.containers.find? (fun c => c.id == "booksGrid")).isSome
              then [Listener.filterSubmit] else []),
      location := loc, alerts := [], console := [], uncaught := [], requests := [],
      pending := [], nativeSubmits := [], defaultPrevented := false, now := 0,
      timers := (queryFlashes (Page.fresh dom loc)).map (fun i => ⟨1500, Task.fade i⟩) } := by
  obtain ⟨priceRange, priceValue, orderRows, contactForm, userSearch, adminRows, bookSearch,
    bookRows, flashes, filterForm, containers⟩ := dom
  unfold boot domContentLoaded evalScript
  rw [bindContactForm_eq, bindUserSearch_eq, bindBookSearch_eq]
  rw [onLoadFlashes_eq]
  · cases priceRange <;> cases priceValue <;> cases filterForm <;>
      cases h4 : containers.find? (fun c => c.id == "booksGrid") <;>
      simp [onLoadFilterForm, onLoadOrderRows, onLoadPrice, Page.fresh, getElementById,
        queryFlashes, h4]
  · cases priceRange <;> cases priceValue <;>
      simp [onLoadOrderRows, onLoadPrice, Page.fresh]

/-! ## Table filters -/

theorem dispatch_one (l : Listener) (handler : Page → Page) (p : Page)
    (h : p.listeners.filter (fun k => k == l) = [l]) : dispatch l handler p = handler p := by
  simp [dispatch, h]

theorem dispatch_none (l : Listener) (handler : Page → Page) (p : Page)
    (h : p.listeners.filter (fun k => k == l) = []) : dispatch l handler p = p := by
  simp [dispatch, h]

theorem filterRows_renderedText (lower : String → String) (f : String) (rows : List Row) :
    (filterRows lower f rows).map Row.renderedText = rows.map Row.renderedText := by
  simp [filterRows, Function.comp_def]

theorem filterRows_textContent (lower : String → String) (f : String) (rows : List Row) :
    (filterRows lower f rows).map Row.textContent = rows.map Row.textContent := by
  simp [filterRows, Function.comp_def]

theorem shownIff_of_includes (lower : String → String) (s t : String) :
    ShownIff lower s t (if includes (lower t) (lower s) then "" else "none") := by
  unfold ShownIff
  by_cases h : includes (lower t) (lower s) = true
  · have h2 := (includes_iff _ _).1 h
    simp [h, h2]
  · have h2 : ¬ (lower s).data <:+: (lower t).data := fun h3 => h ((includes_iff _ _).2 h3)
    simp [h, h2]

theorem filterRows_filtered (lower : String → String) (s : String) (rows : List Row) :
    List.Forall₂ (Filtered lower s) rows (filterRows lower (lower s) rows) := by
  induction rows with
  | nil => exact List.Forall₂.nil
  | cons row rest ih =>
      exact List.Forall₂.cons ⟨rfl, rfl, shownIff_of_includes lower s row.innerText⟩ ih

theorem filterRows_get? (lower : String → String) (f : String) (rows : List Row) (i : Nat) :
    (filterRows lower f rows).get? i =
      (rows.get? i).map (fun row =>
        { row with display := if includes (lower row.innerText) f then "" else "none" }) := by
  simp [filterRows]

theorem inputUserSearch_eq (lower : String → String) (s : String) (p : Page) (box : SearchBox)
    (hbox : p.userSearch = some box)
    (hl : p.listeners.filter (fun k => k == Listener.userFilter) = [Listener.userFilter]) :
    inputUserSearch lower s p =
      { p with userSearch := some { box with value := s },
               adminRows := filterRows lower (lower s) p.adminRows } := by
  unfold inputUserSearch
  rw [hbox]
  simp [dispatch, hl, userFilterHandler]

theorem inputBookSearch_eq (lower : String → String) (s : String) (p : Page) (box : SearchBox)
    (hbox : p.bookSearch = some box)
    (hl : p.listeners.filter (fun k => k == Listener.bookFilter) = [Listener.bookFilter]) :
    inputBookSearch lower s p =
      { p with bookSearch := some { box with value := s },
               bookRows := filterRows lower (lower s) p.bookRows } := by
  unfold inputBookSearch
  rw [hbox]
  simp [dispatch, hl, bookFilterHandler]

theorem filter_guard (c : Prop) [Decidable c] (a l : Listener) :
    (if c then [a] else []).filter (fun k => k == l) = if c ∧ a = l then [a] else [] := by
  by_cases hc : c <;> by_cases ha : a = l <;> simp [hc, ha]

theorem filter_orderClick (l : Listener) (n : Nat) (h : ∀ i, l ≠ Listener.orderClick i) :
    ((List.range n).map Listener.orderClick).filter (fun k => k == l) = [] := by
  simp only [List.filter_eq_nil_iff, List.mem_map, beq_iff_eq]
  rintro k ⟨i, _, rfl⟩ hk
  exact h i hk.symm

theorem boot_userFilter_bound (dom : Dom) (loc : String) (box : SearchBox)
    (hbox : dom.userSearch = some box) :
    (boot dom loc).listeners.filter (fun k => k == Listener.userFilter) = [Listener.userFilter] := by
  rw [boot_eq]
  simp [List.filter_append, filter_guard, filter_orderClick, hbox]

theorem boot_bookFilter_bound (dom : Dom) (loc : String) (box : SearchBox)
    (hbox : dom.bookSearch = some box) :
    (boot dom loc).listeners.filter (fun k => k == Listener.bookFilter) = [Listener.bookFilter] := by
  rw [boot_eq]
  simp [List.filter_append, filter_guard, filter_orderClick, hbox]

theorem typeUserSearch_inv (lower : String → String) (inputs : List String) (p : Page)
    (box : SearchBox) (hbox : p.userSearch = some box)
    (hl : p.listeners.filter (fun k => k == Listener.userFilter) = [Listener.userFilter]) :
    (∃ b, (typeUserSearch lower inputs p).userSearch = some b) ∧
    (typeUserSearch lower inputs p).listeners = p.listeners ∧
    (typeUserSearch lower inputs p).adminRows.map Row.renderedText =
      p.adminRows.map Row.renderedText ∧
    (typeUserSearch lower inputs p).adminRows.map Row.textContent =
      p.adminRows.map Row.textContent := by
  induction inputs generalizing p box with
  | nil => exact ⟨⟨box, hbox⟩, rfl, rfl, rfl⟩
  | cons s rest ih =>
      have hstep := inputUserSearch_eq lower s p box hbox hl
      have h := ih (inputUserSearch lower s p) { box with value := s }
        (by rw [hstep]) (by rw [hstep]; exact hl)
      simp only [typeUserSearch, List.foldl_cons] at h ⊢
      refine ⟨h.1, ?_, ?_, ?_⟩
      · rw [h.2.1, hstep]
      · rw [h.2.2.1, hstep]
        exact filterRows_renderedText _ _ _
      · rw [h.2.2.2, hstep]
        exact filterRows_textContent _ _ _

theorem typeBookSearch_inv (lower : String → String) (inputs : List String) (p : Page)
    (box : SearchBox) (hbox : p.bookSearch = some box)
    (hl : p.listeners.filter (fun k => k == Listener.bookFilter) = [Listener.bookFilter]) :
    (∃ b, (typeBookSearch lower inputs p).bookSearch = some b) ∧
    (typeBookSearch lower inputs p).listeners = p.listeners ∧
    (typeBookSearch lower inputs p).bookRows.map Row.renderedText =
      p.bookRows.map Row.renderedText ∧
    (typeBookSearch lower inputs p).bookRows.map Row.textContent =
      p.bookRows.map Row.textContent := by
  induction inputs generalizing p box with
  | nil => exact ⟨⟨box, hbox⟩, rfl, rfl, rfl⟩
  | cons s rest ih =>
      have hstep := inputBookSearch_eq lower s p box hbox hl
      have h := ih (inputBookSearch lower s p) { box with value := s }
        (by rw [hstep]) (by rw [hstep]; exact hl)
      simp only [typeBookSearch, List.foldl_cons] at h ⊢
      refine ⟨h.1, ?_, ?_, ?_⟩
      · rw [h.2.1, hstep]
      · rw [h.2.2.1, hstep]
        exact filterRows_renderedText _ _ _
      · rw [h.2.2.2, hstep]
        exact filterRows_textContent _ _ _

theorem boot_adminRows (dom : Dom) (loc : String) : (boot dom loc).adminRows = dom.adminRows := by
  rw [boot_eq]

theorem boot_bookRows (dom : Dom) (loc : String) : (boot dom loc).bookRows = dom.bookRows := by
  rw [boot_eq]

theorem boot_userSearch (dom : Dom) (loc : String) : (boot dom loc).userSearch = dom.userSearch := by
  rw [boot_eq]

theorem boot_bookSearch (dom : Dom) (loc : String) : (boot dom loc).bookSearch = dom.bookSearch := by
  rw [boot_eq]

/-- After a load and any earlier edits of `#userSearch`, one more edit to
`s` leaves the admin rows as `filterRows` makes them, and the rows before
it carry the texts of the loaded document's rows. -/
theorem userSearch_after (lower : String → String) (dom : Dom) (loc : String)
    (earlier : List String) (s : String) (box : SearchBox) (hbox : dom.userSearch = some box) :
    (inputUserSearch lower s (typeUserSearch lower earlier (boot dom loc))).adminRows =
      filterRows lower (lower s) (typeUserSearch lower earlier (boot dom loc)).adminRows ∧
    (typeUserSearch lower earlier (boot dom loc)).adminRows.map Row.renderedText =
      dom.adminRows.map Row.renderedText ∧
    (typeUserSearch lower earlier (boot dom loc)).adminRows.map Row.textContent =
      dom.adminRows.map Row.textContent := by
  have hb := boot_userFilter_bound dom loc box hbox
  obtain ⟨⟨b, hb1⟩, hb2, hb3, hb4⟩ := typeUserSearch_inv lower earlier (boot dom loc) box
    (by rw [boot_userSearch]; exact hbox) hb
  rw [inputUserSearch_eq lower s _ b hb1 (by rw [hb2]; exact hb), hb3, hb4, boot_adminRows]
  exact ⟨rfl, rfl, rfl⟩

theorem bookSearch_after (lower : String → String) (dom : Dom) (loc : String)
    (earlier : List String) (s : String) (box : SearchBox) (hbox : dom.bookSearch = some box) :
    (inputBookSearch lower s (typeBookSearch lower earlier (boot dom loc))).bookRows =
      filterRows lower (lower s) (typeBookSearch lower earlier (boot dom loc)).bookRows ∧
    (typeBookSearch lower earlier (boot dom loc)).bookRows.map Row.renderedText =
      dom.bookRows.map Row.renderedText ∧
    (typeBookSearch lower earlier (boot dom loc)).bookRows.map Row.textContent =
      dom.bookRows.map Row.textContent := by
  have hb := boot_bookFilter_bound dom loc box hbox
  obtain ⟨⟨b, hb1⟩, hb2, hb3, hb4⟩ := typeBookSearch_inv lower earlier (boot dom loc) box
    (by rw [boot_bookSearch]; exact hbox) hb
  rw [inputBookSearch_eq lower s _ b hb1 (by rw [hb2]; exact hb), hb3, hb4, boot_bookRows]
  exact ⟨rfl, rfl, rfl⟩

/-- C1: in both filterable tables, take the table as a page load and any
earlier edits of the search box left it (rows may be hidden), and let the
input handler run on the search text `s`.  The table then holds the same
rows, row by row, and every row is visible (display `""`) if and only if
the lower-cased text `t` that `innerText` returned for it when the handler
read it contains the lower-cased `s` as a substring, and has display
`"none"` otherwise.  That text `t` is the row's rendered text when the row
was displayed and its text content when the row was hidden (display
`"none"`); the rows' texts are those of the loaded document. -/
theorem filter_shows_row_iff_text_includes_search (lower : String → String) (dom : Dom)
    (loc : String) (earlier : List String) (s : String) :
    (∀ box, dom.userSearch = some box →
      List.Forall₂ (Filtered lower s)
        (typeUserSearch lower earlier (boot dom loc)).adminRows
        (inputUserSearch lower s (typeUserSearch lower earlier (boot dom loc))).adminRows ∧
      (typeUserSearch lower earlier (boot dom loc)).adminRows.map Row.renderedText =
        dom.adminRows.map Row.renderedText ∧
      (typeUserSearch lower earlier (boot dom loc)).adminRows.map Row.textContent =
        dom.adminRows.map Row.textContent) ∧
    (∀ box, dom.bookSearch = some box →
      List.Forall₂ (Filtered lower s)
        (typeBookSearch lower earlier (boot dom loc)).bookRows
        (inputBookSearch lower s (typeBookSearch lower earlier (boot dom loc))).bookRows ∧
      (typeBookSearch lower earlier (boot dom loc)).bookRows.map Row.renderedText =
        dom.bookRows.map Row.renderedText ∧
      (typeBookSearch lower earlier (boot dom loc)).bookRows.map Row.textContent =
        dom.bookRows.map Row.textContent) ∧
    (∀ row : Row, (row.display = "none" → row.innerText = row.textContent) ∧
      (row.display ≠ "none" → row.innerText = row.renderedText)) := by
  refine ⟨?_, ?_, ?_⟩
  · intro box hbox
    obtain ⟨h1, h2, h3⟩ := userSearch_after lower dom loc earlier s box hbox
    rw [h1]
    exact ⟨filterRows_filtered lower s _, h2, h3⟩
  · intro box hbox
    obtain ⟨h1, h2, h3⟩ := bookSearch_after lower dom loc earlier s box hbox
    rw [h1]
    exact ⟨filterRows_filtered lower s _, h2, h3⟩
  · intro row
    constructor
    · intro h
      simp [Row.innerText, h]
    · intro h
      simp [Row.innerText, h]

theorem filter_shows_row_iff_text_includes_search_witness :
    (typeUserSearch asciiLower ["zzz"] (boot demoDom "/admin")).adminRows =
      [⟨"Alice\tAdmin", "AliceAdmin", "none"⟩, ⟨"Bob\tUser", "BobUser", "none"⟩] ∧
    (inputUserSearch asciiLower "bobuser" (typeUserSearch asciiLower ["zzz"]
        (boot demoDom "/admin"))).adminRows =
      [⟨"Alice\tAdmin", "AliceAdmin", "none"⟩, ⟨"Bob\tUser", "BobUser", ""⟩] ∧
    (inputUserSearch asciiLower "bob user" (typeUserSearch asciiLower ["zzz"]
        (boot demoDom "/admin"))).adminRows =
      [⟨"Alice\tAdmin", "AliceAdmin", "none"⟩, ⟨"Bob\tUser", "BobUser", "none"⟩] ∧
    (inputUserSearch asciiLower "B\tU" (typeUserSearch asciiLower []
        (boot demoDom "/admin"))).adminRows =
      [⟨"Alice\tAdmin", "AliceAdmin", "none"⟩, ⟨"Bob\tUser", "BobUser", ""⟩] ∧
    List.Forall₂ (Filtered asciiLower "bobuser")
      (typeUserSearch asciiLower ["zzz"] (boot demoDom "/admin")).adminRows
      (inputUserSearch asciiLower "bobuser" (typeUserSearch asciiLower ["zzz"]
        (boot demoDom "/admin"))).adminRows ∧
    List.Forall₂ (Filtered asciiLower "dU")
      (typeBookSearch asciiLower ["q"] (boot demoDom "/admin")).bookRows
      (inputBookSearch asciiLower "dU" (typeBookSearch asciiLower ["q"]
        (boot demoDom "/admin"))).bookRows :=
  ⟨by decide, by decide, by decide, by decide,
   ((filter_shows_row_iff_text_includes_search asciiLower demoDom "/admin" ["zzz"]
      "bobuser").1 ⟨""⟩ rfl).1,
   ((filter_shows_row_iff_text_includes_search asciiLower demoDom "/admin" ["q"]
      "dU").2.1 ⟨""⟩ rfl).1⟩

theorem filterRows_empty (lower : String → String) (hlower : lower "" = "") (rows : List Row) :
    ∀ row ∈ filterRows lower (lower "") rows, row.display = "" := by
  intro row hrow
  simp only [filterRows, List.mem_map] at hrow
  obtain ⟨r, _, rfl⟩ := hrow
  have h := shownIff_of_includes lower "" r.innerText
  apply h.1.2
  rw [hlower]
  exact List.nil_infix

/-- C2: from any state of a filterable table reached by a page load and a
sequence of earlier filter inputs (which may have hidden rows), running the
filter handler on the empty search text leaves every row of the table
visible (display `""`); the table still holds all its rows. -/
theorem empty_filter_shows_every_row (lower : String → String) (hlower : lower "" = "")
    (dom : Dom) (loc : String) (earlier : List String) :
    (∀ box, dom.userSearch = some box →
      (inputUserSearch lower "" (typeUserSearch lower earlier (boot dom loc))).adminRows.map
          Row.renderedText = dom.adminRows.map Row.renderedText ∧
      (inputUserSearch lower "" (typeUserSearch lower earlier (boot dom loc))).adminRows.map
          Row.textContent = dom.adminRows.map Row.textContent ∧
      ∀ row ∈ (inputUserSearch lower "" (typeUserSearch lower earlier (boot dom loc))).adminRows,
        row.display = "") ∧
    (∀ box, dom.bookSearch = some box →
      (inputBookSearch lower "" (typeBookSearch lower earlier (boot dom loc))).bookRows.map
          Row.renderedText = dom.bookRows.map Row.renderedText ∧
      (inputBookSearch lower "" (typeBookSearch lower earlier (boot dom loc))).bookRows.map
          Row.textContent = dom.bookRows.map Row.textContent ∧
      ∀ row ∈ (inputBookSearch lower "" (typeBookSearch lower earlier (boot dom loc))).bookRows,
        row.display = "") := by
  constructor
  · intro box hbox
    obtain ⟨h1, h2, h3⟩ := userSearch_after lower dom loc earlier "" box hbox
    rw [h1]
    exact ⟨by rw [filterRows_renderedText, h2], by rw [filterRows_textContent, h3],
      filterRows_empty lower hlower _⟩
  · intro box hbox
    obtain ⟨h1, h2, h3⟩ := bookSearch_after lower dom loc earlier "" box hbox
    rw [h1]
    exact ⟨by rw [filterRows_renderedText, h2], by rw [filterRows_textContent, h3],
      filterRows_empty lower hlower _⟩

theorem empty_filter_shows_every_row_witness :
    asciiLower "" = "" ∧
    (typeUserSearch asciiLower ["bo", "ALI"] (boot demoDom "/admin")).adminRows =
      [⟨"Alice\tAdmin", "AliceAdmin", ""⟩, ⟨"Bob\tUser", "BobUser", "none"⟩] ∧
    ((inputUserSearch asciiLower "" (typeUserSearch asciiLower ["bo", "ALI"]
        (boot demoDom "/admin"))).adminRows.map Row.renderedText =
        ["Alice\tAdmin", "Bob\tUser"] ∧
      (inputUserSearch asciiLower "" (typeUserSearch asciiLower ["bo", "ALI"]
        (boot demoDom "/admin"))).adminRows.map Row.textContent = ["AliceAdmin", "BobUser"] ∧
      ∀ row ∈ (inputUserSearch asciiLower "" (typeUserSearch asciiLower ["bo", "ALI"]
        (boot demoDom "/admin"))).adminRows, row.display = "") ∧
    (typeBookSearch asciiLower ["zz"] (boot demoDom "/admin")).bookRows =
      [⟨"Dune", "Dune", "none"⟩, ⟨"Emma", "Emma", "none"⟩] ∧
    ((inputBookSearch asciiLower "" (typeBookSearch asciiLower ["zz"]
        (boot demoDom "/admin"))).bookRows.map Row.renderedText = ["Dune", "Emma"] ∧
      (inputBookSearch asciiLower "" (typeBookSearch asciiLower ["zz"]
        (boot demoDom "/admin"))).bookRows.map Row.textContent = ["Dune", "Emma"] ∧
      ∀ row ∈ (inputBookSearch asciiLower "" (typeBookSearch asciiLower ["zz"]
        (boot demoDom "/admin"))).bookRows, row.display = "") :=
  ⟨rfl, by decide,
   (empty_filter_shows_every_row asciiLower rfl demoDom "/admin" ["bo", "ALI"]).1 ⟨""⟩ rfl,
   by decide,
   (empty_filter_shows_every_row asciiLower rfl demoDom "/admin" ["zz"]).2 ⟨""⟩ rfl⟩

theorem filterRows_same_text (lower : String → String) (f : String) (rows : List Row)
    (i j : Nat) (r1 r2 : Row) (h1 : rows.get? i = some r1) (h2 : rows.get? j = some r2)
    (h : lower r1.innerText = lower r2.innerText) :
    ∃ d, ((filterRows lower f rows).get? i).map Row.display = some d ∧
      ((filterRows lower f rows).get? j).map Row.display = some d := by
  refine ⟨if includes (lower r1.innerText) f then "" else "none", ?_, ?_⟩
  · rw [filterRows_get?, h1]
    rfl
  · rw [filterRows_get?, h2, h]
    rfl

/-- C3: the live table filter is case-insensitive.  In both tables, after a
page load and any earlier edits: two search texts with the same lower-casing
leave every row with the same visibility (the tables come out equal), and
under any search text two rows of the table whose texts, as `innerText`
returns them to the handler, have the same lower-casing end with the same
display style. -/
theorem filter_is_case_insensitive (lower : String → String) (dom : Dom) (loc : String)
    (earlier : List String) :
    (∀ box, dom.userSearch = some box →
      (∀ s1 s2, lower s1 = lower s2 →
        (inputUserSearch lower s1 (typeUserSearch lower earlier (boot dom loc))).adminRows =
        (inputUserSearch lower s2 (typeUserSearch lower earlier (boot dom loc))).adminRows) ∧
      (∀ s i j r1 r2,
        (typeUserSearch lower earlier (boot dom loc)).adminRows.get? i = some r1 →
        (typeUserSearch lower earlier (boot dom loc)).adminRows.get? j = some r2 →
        lower r1.innerText = lower r2.innerText →
        ∃ d,
          ((inputUserSearch lower s (typeUserSearch lower earlier
            (boot dom loc))).adminRows.get? i).map Row.display = some d ∧
          ((inputUserSearch lower s (typeUserSearch lower earlier
            (boot dom loc))).adminRows.get? j).map Row.display = some d)) ∧
    (∀ box, dom.bookSearch = some box →
      (∀ s1 s2, lower s1 = lower s2 →
        (inputBookSearch lower s1 (typeBookSearch lower earlier (boot dom loc))).bookRows =
        (inputBookSearch lower s2 (typeBookSearch lower earlier (boot dom loc))).bookRows) ∧
      (∀ s i j r1 r2,
        (typeBookSearch lower earlier (boot dom loc)).bookRows.get? i = some r1 →
        (typeBookSearch lower earlier (boot dom loc)).bookRows.get? j = some r2 →
        lower r1.innerText = lower r2.innerText →
        ∃ d,
          ((inputBookSearch lower s (typeBookSearch lower earlier
            (boot dom loc))).bookRows.get? i).map Row.display = some d ∧
          ((inputBookSearch lower s (typeBookSearch lower earlier
            (boot dom loc))).bookRows.get? j).map Row.display = some d)) := by
  constructor
  · intro box hbox
    constructor
    · intro s1 s2 h
      rw [(userSearch_after lower dom loc earlier s1 box hbox).1,
        (userSearch_after lower dom loc earlier s2 box hbox).1, h]
    · intro s i j r1 r2 h1 h2 h
      rw [(userSearch_after lower dom loc earlier s box hbox).1]
      exact filterRows_same_text lower _ _ i j r1 r2 h1 h2 h
  · intro box hbox
    constructor
    · intro s1 s2 h
      rw [(bookSearch_after lower dom loc earlier s1 box hbox).1,
        (bookSearch_after lower dom loc earlier s2 box hbox).1, h]
    · intro s i j r1 r2 h1 h2 h
      rw [(bookSearch_after lower dom loc earlier s box hbox).1]
      exact filterRows_same_text lower _ _ i j r1 r2 h1 h2 h

theorem filter_is_case_insensitive_witness :
    (asciiLower "Ali" = asciiLower "aLI" ∧
      (inputUserSearch asciiLower "Ali" (typeUserSearch asciiLower ["x"]
        (boot caseDom "/admin"))).adminRows =
      (inputUserSearch asciiLower "aLI" (typeUserSearch asciiLower ["x"]
        (boot caseDom "/admin"))).adminRows) ∧
    ((typeUserSearch asciiLower ["x"] (boot caseDom "/admin")).adminRows.get? 0 =
        some ⟨"Alice", "Alice", "none"⟩ ∧
      (typeUserSearch asciiLower ["x"] (boot caseDom "/admin")).adminRows.get? 1 =
        some ⟨"ALICE", "ALICE", "none"⟩ ∧
      asciiLower (Row.innerText ⟨"Alice", "Alice", "none"⟩) =
        asciiLower (Row.innerText ⟨"ALICE", "ALICE", "none"⟩) ∧
      ∃ d,
        ((inputUserSearch asciiLower "lic" (typeUserSearch asciiLower ["x"]
          (boot caseDom "/admin"))).adminRows.get? 0).map Row.display = some d ∧
        ((inputUserSearch asciiLower "lic" (typeUserSearch asciiLower ["x"]
          (boot caseDom "/admin"))).adminRows.get? 1).map Row.display = some d) ∧
    (asciiLower "DUNE" = asciiLower "dune" ∧
      (inputBookSearch asciiLower "DUNE" (typeBookSearch asciiLower []
        (boot caseDom "/admin"))).bookRows =
      (inputBookSearch asciiLower "dune" (typeBookSearch asciiLower []
        (boot caseDom "/admin"))).bookRows) :=
  ⟨⟨by decide,
    ((filter_is_case_insensitive asciiLower caseDom "/admin" ["x"]).1 ⟨""⟩ rfl).1
      "Ali" "aLI" (by decide)⟩,
   ⟨by decide, by decide, by decide,
    ((filter_is_case_insensitive asciiLower caseDom "/admin" ["x"]).1 ⟨""⟩ rfl).2
      "lic" 0 1 ⟨"Alice", "Alice", "none"⟩ ⟨"ALICE", "ALICE", "none"⟩ (by decide) (by decide)
      (by decide)⟩,
   ⟨by decide,
    ((filter_is_case_insensitive asciiLower caseDom "/admin" []).2 ⟨""⟩ rfl).1
      "DUNE" "dune" (by decide)⟩⟩

/-! ## Price slider -/

theorem boot_priceInput_bound (dom : Dom) (loc : String) (range : RangeInput) (label : Label)
    (hr : dom.priceRange = some range) (hl : dom.priceValue = some label) :
    (boot dom loc).listeners.filter (fun k => k == Listener.priceInput) = [Listener.priceInput] := by
  rw [boot_eq]
  simp [List.filter_append, filter_guard, filter_orderClick, hr, hl]

theorem boot_priceValue (dom : Dom) (loc : String) (range : RangeInput) (label : Label)
    (hr : dom.priceRange = some range) (hl : dom.priceValue = some label) :
    (boot dom loc).priceValue = some { label with textContent := range.value ++ " BDT" } := by
  rw [boot_eq]
  simp only [hr, hl]

theorem boot_priceRange (dom : Dom) (loc : String) : (boot dom loc).priceRange = dom.priceRange := by
  rw [boot_eq]

theorem inputPriceRange_eq (v : String) (p : Page) (range : RangeInput) (label : Label)
    (hr : p.priceRange = some range) (hl : p.priceValue = some label)
    (hb : p.listeners.filter (fun k => k == Listener.priceInput) = [Listener.priceInput]) :
    inputPriceRange v p =
      { p with priceRange := some { range with value := v },
               priceValue := some { label with textContent := v ++ " BDT" } } := by
  unfold inputPriceRange
  rw [hr]
  simp [dispatch, hb, priceInputHandler, hl]

theorem moveSlider_inv (values : List String) (p : Page) (range : RangeInput) (label : Label)
    (hr : p.priceRange = some range) (hl : p.priceValue = some label)
    (hb : p.listeners.filter (fun k => k == Listener.priceInput) = [Listener.priceInput]) :
    (∃ r, (moveSlider values p).priceRange = some r) ∧
    (∃ l, (moveSlider values p).priceValue = some l) ∧
    (moveSlider values p).listeners = p.listeners := by
  induction values generalizing p range label with
  | nil => exact ⟨⟨range, hr⟩, ⟨label, hl⟩, rfl⟩
  | cons v rest ih =>
      have hstep := inputPriceRange_eq v p range label hr hl hb
      have h := ih (inputPriceRange v p) { range with value := v }
        { label with textContent := v ++ " BDT" } (by rw [hstep]) (by rw [hstep])
        (by rw [hstep]; exact hb)
      simp only [moveSlider, List.foldl_cons] at h ⊢
      refine ⟨h.1, h.2.1, ?_⟩
      rw [h.2.2, hstep]

/-- C4: when the document holds both `#priceRange` and `#priceValue`, then
for every integer `v` (in particular every `v` within the slider's declared
bounds): if the input holds `v` at page load, the label's text after the
load is the decimal rendering of `v` followed by `" BDT"`; and after any
earlier moves of the slider, an input event that sets the slider to `v`
leaves the label's text equal to the decimal rendering of `v` followed by
`" BDT"`. -/
theorem price_label_mirrors_slider (dom : Dom) (loc : String) (range : RangeInput)
    (label : Label) (hr : dom.priceRange = some range) (hl : dom.priceValue = some label)
    (v : Int) :
    (range.value = toString v →
      (boot dom loc).priceValue.map Label.textContent = some (toString v ++ " BDT")) ∧
    (∀ earlier : List String,
      (inputPriceRange (toString v) (moveSlider earlier (boot dom loc))).priceValue.map
        Label.textContent = some (toString v ++ " BDT")) := by
  constructor
  · intro hv
    rw [boot_priceValue dom loc range label hr hl, hv]
    rfl
  · intro earlier
    obtain ⟨⟨r, h1⟩, ⟨l, h2⟩, h3⟩ := moveSlider_inv earlier (boot dom loc) range _
      (by rw [boot_priceRange]; exact hr) (boot_priceValue dom loc range label hr hl)
      (boot_priceInput_bound dom loc range label hr hl)
    rw [inputPriceRange_eq _ _ r l h1 h2
      (by rw [h3]; exact boot_priceInput_bound dom loc range label hr hl)]
    rfl

theorem price_label_mirrors_slider_witness :
    (boot demoDom "/books").priceValue.map Label.textContent = some "500 BDT" ∧
    (inputPriceRange "1250" (moveSlider ["10", "990"] (boot demoDom "/books"))).priceValue.map
      Label.textContent = some "1250 BDT" :=
  ⟨(price_label_mirrors_slider demoDom "/books" ⟨"500"⟩ ⟨""⟩ rfl rfl 500).1 (by decide),
   (price_label_mirrors_slider demoDom "/books" ⟨"500"⟩ ⟨""⟩ rfl rfl 1250).2 ["10", "990"]⟩

/-! ## Order rows -/

theorem filter_orderClick_self (n i : Nat) :
    ((List.range n).map Listener.orderClick).filter (fun k => k == Listener.orderClick i) =
      if i < n then [Listener.orderClick i] else [] := by
  induction n with
  | zero => simp
  | succ n ih =>
      rw [List.range_succ, List.map_append, List.filter_append, ih]
      by_cases h1 : i < n
      · have h2 : n ≠ i := by omega
        have h3 : i < n + 1 := by omega
        simp [h1, h2, h3]
      · by_cases h2 : n = i
        · subst h2
          simp
        · have h3 : ¬ i < n + 1 := by omega
          simp [h1, h2, h3]

theorem boot_orderClick_bound (dom : Dom) (loc : String) (i : Nat) (h : i < dom.orderRows.length) :
    (boot dom loc).listeners.filter (fun k => k == Listener.orderClick i) =
      [Listener.orderClick i] := by
  rw [boot_eq]
  simp [List.filter_append, filter_guard, filter_orderClick_self, h]

theorem boot_orderRows (dom : Dom) (loc : String) : (boot dom loc).orderRows = dom.orderRows := by
  rw [boot_eq]

theorem clickOrderRow_boot (dom : Dom) (loc : String) (i : Nat) (row : OrderRow)
    (hrow : dom.orderRows.get? i = some row) :
    clickOrderRow i (boot dom loc) =
      if truthy row.receipt then { boot dom loc with location := row.receipt.getD "" }
      else boot dom loc := by
  have hi : i < dom.orderRows.length := by
    rcases Nat.lt_or_ge i dom.orderRows.length with h | h
    · exact h
    · rw [List.get?_eq_none.2 h] at hrow
      cases hrow
  unfold clickOrderRow
  rw [boot_orderRows, if_pos hi, dispatch_one _ _ _ (boot_orderClick_bound dom loc i hi)]
  unfold orderClickHandler
  rw [boot_orderRows, hrow]

/-- C5 as stated fails where the attribute is present but empty: the third
order row of `demoDom` has `data-receipt=""`, and a click on it leaves the
location at `"/orders"` instead of setting it to `""`. -/
theorem order_click_empty_receipt_counterexample :
    demoDom.orderRows.get? 2 = some ⟨some ""⟩ ∧
    (clickOrderRow 2 (boot demoDom "/orders")).location = "/orders" ∧
    (clickOrderRow 2 (boot demoDom "/orders")).location ≠ "" := by
  decide

/-- C5, amended: for every order row of the loaded page, a click on a row
whose `data-receipt` attribute holds a non-empty URL `u` sets the page
location to exactly `u` and changes nothing else; a click on a row with no
`data-receipt` attribute, or with an empty one, leaves the page (its
location included) as it was. -/
theorem order_click_navigates_to_nonempty_receipt (dom : Dom) (loc : String) (i : Nat)
    (row : OrderRow) (hrow : dom.orderRows.get? i = some row) :
    (∀ u, row.receipt = some u → u ≠ "" →
      clickOrderRow i (boot dom loc) = { boot dom loc with location := u }) ∧
    (row.receipt = none ∨ row.receipt = some "" →
      clickOrderRow i (boot dom loc) = boot dom loc) := by
  rw [clickOrderRow_boot dom loc i row hrow]
  constructor
  · intro u hu hne
    simp [hu, truthy, hne]
  · rintro (h | h) <;> simp [h, truthy]

theorem order_click_navigates_to_nonempty_receipt_witness :
    (clickOrderRow 0 (boot demoDom "/orders") =
      { boot demoDom "/orders" with location := "/orders/42/receipt" }) ∧
    clickOrderRow 1 (boot demoDom "/orders") = boot demoDom "/orders" ∧
    clickOrderRow 2 (boot demoDom "/orders") = boot demoDom "/orders" :=
  ⟨(order_click_navigates_to_nonempty_receipt demoDom "/orders" 0 ⟨some "/orders/42/receipt"⟩
      rfl).1 "/orders/42/receipt" rfl (by decide),
   (order_click_navigates_to_nonempty_receipt demoDom "/orders" 1 ⟨none⟩ rfl).2 (Or.inl rfl),
   (order_click_navigates_to_nonempty_receipt demoDom "/orders" 2 ⟨some ""⟩ rfl).2 (Or.inr rfl)⟩

/-! ## AJAX filter form -/

theorem pair_ne_empty (a b c : String) : a ++ c ++ "=" ++ b ≠ "" := by
  intro h
  have := congrArg String.length h
  simp only [String.length_append] at this
  have h2 : "=".length = 1 := rfl
  have h3 : "".length = 0 := rfl
  omega

theorem serializeLoop_eq_go (output : String) (h : output ≠ "") (rest : List (String × String)) :
    serializeLoop output rest =
      String.intercalate.go output "&"
        (rest.map (fun e => urlencode e.1 ++ "=" ++ urlencode e.2)) := by
  induction rest generalizing output with
  | nil => rfl
  | cons e rest ih =>
      obtain ⟨name, value⟩ := e
      simp only [serializeLoop, h, ne_eq, not_false_eq_true, if_true, List.map_cons,
        String.intercalate.go]
      rw [ih _ (pair_ne_empty _ _ _)]
      simp only [String.append_assoc]

/-- The serializer's output is the `name=value` pairs, each side
percent-encoded, in order and joined by `&`. -/
theorem urlSearchParamsToString_eq (entries : List (String × String)) :
    urlSearchParamsToString entries =
      "&".intercalate (entries.map (fun e => urlencode e.1 ++ "=" ++ urlencode e.2)) := by
  cases entries with
  | nil => rfl
  | cons e rest =>
      obtain ⟨name, value⟩ := e
      simp only [urlSearchParamsToString, serializeLoop, List.map_cons, String.intercalate]
      have h : ("" : String) ++ urlencode name ++ "=" ++ urlencode value ≠ "" :=
        pair_ne_empty _ _ _
      simp only [ne_eq, not_true_eq_false, if_false]
      rw [serializeLoop_eq_go _ h]
      simp

theorem boot_filterSubmit_bound (dom : Dom) (loc : String) (formData : List (String × String))
    (grid : Container) (hf : dom.filterForm = some formData)
    (hg : dom.containers.find? (fun c => c.id == "booksGrid") = some grid) :
    (boot dom loc).listeners.filter (fun k => k == Listener.filterSubmit) =
      [Listener.filterSubmit] := by
  rw [boot_eq]
  simp [List.filter_append, filter_guard, filter_orderClick, hf, hg]

theorem submitFilterForm_boot (dom : Dom) (loc : String) (formData : List (String × String))
    (grid : Container) (hf : dom.filterForm = some formData)
    (hg : dom.containers.find? (fun c => c.id == "booksGrid") = some grid) :
    submitFilterForm (boot dom loc) =
      { boot dom loc with
        defaultPrevented := true,
        requests := [⟨"GET", "/books_ajax?" ++ urlSearchParamsToString formData⟩],
        pending := [Continuation.booksGrid] } := by
  have hb := boot_filterSubmit_bound dom loc formData grid hf hg
  have hf2 : (boot dom loc).filterForm = some formData := by rw [boot_eq]; exact hf
  have hr : (boot dom loc).requests = [] := by rw [boot_eq]
  have hp : (boot dom loc).pending = [] := by rw [boot_eq]
  unfold submitFilterForm
  rw [hf2]
  simp [submitForm, dispatch, hb, filterSubmitHandler, hf2, hr, hp]

/-- C6: when the loaded document holds the filter form and the `booksGrid`
container, then for every content `formData` of the form, one submit of the
form cancels the native submission (`preventDefault` is called and no
native submission happens) and issues exactly one request: a GET whose URL
is `/books_ajax?` followed by the form's `name=value` pairs, names and
values URL-encoded, in form order and joined by `&`.  For the fields
genre = fiction, maxPrice = 500 the URL is exactly
`/books_ajax?genre=fiction&maxPrice=500`. -/
theorem filter_submit_issues_one_get (dom : Dom) (loc : String)
    (formData : List (String × String)) (grid : Container)
    (hf : dom.filterForm = some formData)
    (hg : dom.containers.find? (fun c => c.id == "booksGrid") = some grid) :
    (submitFilterForm (boot dom loc)).defaultPrevented = true ∧
    (submitFilterForm (boot dom loc)).nativeSubmits = [] ∧
    (submitFilterForm (boot dom loc)).requests =
      [⟨"GET", "/books_ajax?" ++
        "&".intercalate (formData.map (fun e => urlencode e.1 ++ "=" ++ urlencode e.2))⟩] ∧
    (formData = [("genre", "fiction"), ("maxPrice", "500")] →
      (submitFilterForm (boot dom loc)).requests =
        [⟨"GET", "/books_ajax?genre=fiction&maxPrice=500"⟩]) := by
  rw [submitFilterForm_boot dom loc formData grid hf hg]
  refine ⟨rfl, ?_, ?_, ?_⟩
  · show (boot dom loc).nativeSubmits = []
    rw [boot_eq]
  · show [Request.mk "GET" ("/books_ajax?" ++ urlSearchParamsToString formData)] = _
    rw [urlSearchParamsToString_eq]
  · intro h
    subst h
    show [Request.mk "GET" ("/books_ajax?" ++
      urlSearchParamsToString [("genre", "fiction"), ("maxPrice", "500")])] = _
    decide

theorem filter_submit_issues_one_get_witness :
    (submitFilterForm (boot demoDom "/books")).defaultPrevented = true ∧
    (submitFilterForm (boot demoDom "/books")).nativeSubmits = [] ∧
    (submitFilterForm (boot demoDom "/books")).requests =
      [⟨"GET", "/books_ajax?" ++ "&".intercalate
        ([("genre", "fiction"), ("maxPrice", "500")].map
          (fun e => urlencode e.1 ++ "=" ++ urlencode e.2))⟩] ∧
    (submitFilterForm (boot demoDom "/books")).requests =
      [⟨"GET", "/books_ajax?genre=fiction&maxPrice=500"⟩] :=
  have h := filter_submit_issues_one_get demoDom "/books"
    [("genre", "fiction"), ("maxPrice", "500")] ⟨"booksGrid", "<p>old</p>"⟩ rfl (by decide)
  ⟨h.1, h.2.1, h.2.2.1, h.2.2.2 rfl⟩

theorem find_setInnerHTML (id html : String) (cs : List Container) :
    (setInnerHTML id html cs).find? (fun c => c.id == id) =
      (cs.find? (fun c => c.id == id)).map (fun c => { c with innerHTML := html }) := by
  induction cs with
  | nil => rfl
  | cons c rest ih =>
      by_cases h : (c.id == id) = true
      · simp [setInnerHTML, h, List.find?_cons]
      · simp only [Bool.not_eq_true] at h
        simp [setInnerHTML, h, List.find?_cons, ih]

/-- C7: after a submit of the filter form on the loaded page, with `grid`
the `booksGrid` container and its prior markup: if the fetch settles with
response body `b`, the container's markup becomes exactly `b` (its other
attributes kept); if the fetch, or reading its body, fails with `err`, the
page is as before the outcome except that `err` is appended to the console
log (and the request is no longer pending): the container still holds its
prior markup and nothing else has changed. -/
theorem filter_fetch_outcome (updateAuthButton : Page → Page) (dom : Dom) (loc : String)
    (formData : List (String × String)) (grid : Container)
    (hf : dom.filterForm = some formData)
    (hg : dom.containers.find? (fun c => c.id == "booksGrid") = some grid) :
    (∀ b, getElementById "booksGrid"
        (settleFetch updateAuthButton 0 (FetchOutcome.body b) (submitFilterForm (boot dom loc))) =
      some { grid with innerHTML := b }) ∧
    (∀ err,
      settleFetch updateAuthButton 0 (FetchOutcome.failed err) (submitFilterForm (boot dom loc)) =
        { submitFilterForm (boot dom loc) with
          pending := [],
          console := (submitFilterForm (boot dom loc)).console ++ [err] } ∧
      getElementById "booksGrid"
        (settleFetch updateAuthButton 0 (FetchOutcome.failed err)
          (submitFilterForm (boot dom loc))) = some grid) := by
  have hc : (boot dom loc).containers = dom.containers := by rw [boot_eq]
  rw [submitFilterForm_boot dom loc formData grid hf hg]
  constructor
  · intro b
    simp [settleFetch, settle, getElementById, find_setInnerHTML, hc, hg]
  · intro err
    simp [settleFetch, settle, getElementById, hc, hg]

theorem filter_fetch_outcome_witness :
    getElementById "booksGrid" (settleFetch id 0 (FetchOutcome.body "<b>new</b>")
      (submitFilterForm (boot demoDom "/books"))) = some ⟨"booksGrid", "<b>new</b>"⟩ ∧
    settleFetch id 0 (FetchOutcome.failed "TypeError: Failed to fetch")
        (submitFilterForm (boot demoDom "/books")) =
      { submitFilterForm (boot demoDom "/books") with
        pending := [],
        console := (submitFilterForm (boot demoDom "/books")).console ++
          ["TypeError: Failed to fetch"] } ∧
    getElementById "booksGrid" (settleFetch id 0 (FetchOutcome.failed "TypeError: Failed to fetch")
      (submitFilterForm (boot demoDom "/books"))) = some ⟨"booksGrid", "<p>old</p>"⟩ :=
  have h := filter_fetch_outcome id demoDom "/books"
    [("genre", "fiction"), ("maxPrice", "500")] ⟨"booksGrid", "<p>old</p>"⟩ rfl (by decide)
  ⟨h.1 "<b>new</b>", (h.2 "TypeError: Failed to fetch").1, (h.2 "TypeError: Failed to fetch").2⟩

/-! ## Contact form -/

theorem boot_contactSubmit_bound (dom : Dom) (loc : String) (fields : List Field)
    (hc : dom.contactForm = some fields) :
    (boot dom loc).listeners.filter (fun k => k == Listener.contactSubmit) =
      [Listener.contactSubmit] := by
  rw [boot_eq]
  simp [List.filter_append, filter_guard, filter_orderClick, hc]

theorem submitContactForm_boot (dom : Dom) (loc : String) (fields : List Field)
    (hc : dom.contactForm = some fields) :
    submitContactForm (boot dom loc) =
      { boot dom loc with
        defaultPrevented := true,
        alerts := ["Message sent! (frontend only)"],
        contactForm := some (resetForm fields) } := by
  have hb := boot_contactSubmit_bound dom loc fields hc
  have hc2 : (boot dom loc).contactForm = some fields := by rw [boot_eq]; exact hc
  have ha : (boot dom loc).alerts = [] := by rw [boot_eq]
  unfold submitContactForm
  rw [hc2]
  simp [submitForm, dispatch, hb, contactSubmitHandler, hc2, ha]

/-- C9 as stated fails for a field whose markup gives it a non-empty
default: the `email` field of `demoDom` (default `me@x.org`, typed value
`ann@x.org`) holds `me@x.org` after the submit, so not every field is
cleared. -/
theorem contact_submit_not_cleared_counterexample :
    (submitContactForm (boot demoDom "/contact")).contactForm =
      some [⟨"name", "", ""⟩, ⟨"email", "me@x.org", "me@x.org"⟩] ∧
    ¬ (∀ fields, (submitContactForm (boot demoDom "/contact")).contactForm = some fields →
        ∀ f ∈ fields, f.value = "") := by
  have h : (submitContactForm (boot demoDom "/contact")).contactForm =
      some [⟨"name", "", ""⟩, ⟨"email", "me@x.org", "me@x.org"⟩] := by decide
  refine ⟨h, fun hall => ?_⟩
  have := hall _ h ⟨"email", "me@x.org", "me@x.org"⟩ (by decide)
  exact absurd this (by decide)

/-- C9, amended: for every content of the contact form's fields, a submit
of the contact form on the loaded page cancels the default submission (no
native submission happens), issues no network request, shows the
acknowledgement "Message sent! (frontend only)", and afterwards every field
of the form holds its default value again: a field is cleared exactly when
its default is empty.  Nothing else on the page changes. -/
theorem contact_submit_resets_fields (dom : Dom) (loc : String) (fields : List Field)
    (hc : dom.contactForm = some fields) :
    (submitContactForm (boot dom loc)).defaultPrevented = true ∧
    (submitContactForm (boot dom loc)).nativeSubmits = [] ∧
    (submitContactForm (boot dom loc)).requests = [] ∧
    (submitContactForm (boot dom loc)).alerts = ["Message sent! (frontend only)"] ∧
    (submitContactForm (boot dom loc)).contactForm =
      some (fields.map (fun f => { f with value := f.defaultValue })) ∧
    (∀ after, (submitContactForm (boot dom loc)).contactForm = some after →
      ∀ f ∈ after, f.value = f.defaultValue ∧ (f.value = "" ↔ f.defaultValue = "")) ∧
    submitContactForm (boot dom loc) =
      { boot dom loc with
        defaultPrevented := true,
        alerts := ["Message sent! (frontend only)"],
        contactForm := some (fields.map (fun f => { f with value := f.defaultValue })) } := by
  rw [submitContactForm_boot dom loc fields hc]
  refine ⟨rfl, ?_, ?_, rfl, rfl, ?_, rfl⟩
  · show (boot dom loc).nativeSubmits = []
    rw [boot_eq]
  · show (boot dom loc).requests = []
    rw [boot_eq]
  · intro after hafter f hf
    have h2 : after = resetForm fields := (Option.some.inj hafter).symm
    subst h2
    simp only [resetForm, List.mem_map] at hf
    obtain ⟨g, _, rfl⟩ := hf
    exact ⟨rfl, Iff.rfl⟩

theorem contact_submit_resets_fields_witness :
    (submitContactForm (boot demoDom "/contact")).defaultPrevented = true ∧
    (submitContactForm (boot demoDom "/contact")).nativeSubmits = [] ∧
    (submitContactForm (boot demoDom "/contact")).requests = [] ∧
    (submitContactForm (boot demoDom "/contact")).alerts = ["Message sent! (frontend only)"] ∧
    (submitContactForm (boot demoDom "/contact")).contactForm =
      some [⟨"name", "", ""⟩, ⟨"email", "me@x.org", "me@x.org"⟩] :=
  have h := contact_submit_resets_fields demoDom "/contact"
    [⟨"name", "", "Ann"⟩, ⟨"email", "me@x.org", "ann@x.org"⟩] rfl
  ⟨h.1, h.2.1, h.2.2.1, h.2.2.2.1, h.2.2.2.2.1⟩

/-! ## Flash messages -/

theorem get?_updateAt {α : Type} (f : α → α) (j i : Nat) (l : List α) :
    (updateAt f j l).get? i = if i = j then (l.get? i).map f else l.get? i := by
  induction l generalizing i j with
  | nil => cases j <;> simp [updateAt]
  | cons a as ih =>
      cases j with
      | zero =>
          cases i with
          | zero => simp [updateAt]
          | succ i => simp [updateAt]
      | succ j =>
          cases i with
          | zero => simp [updateAt]
          | succ i => simpa [updateAt] using ih j i

theorem earliest_eq_none (lat : Task → Nat) (l : List Timer) (h : earliest lat l = none) :
    l = [] := by
  cases l with
  | nil => rfl
  | cons timer rest =>
      simp only [earliest] at h
      cases h2 : earliest lat rest with
      | none => simp [h2] at h
      | some u =>
          rw [h2] at h
          simp only at h
          split at h <;> cases h

theorem earliest_some (lat : Task → Nat) (l : List Timer) (x : Timer)
    (h : earliest lat l = some x) : x ∈ l ∧ ∀ y ∈ l, runAt lat x ≤ runAt lat y := by
  induction l generalizing x with
  | nil => cases h
  | cons timer rest ih =>
      simp only [earliest] at h
      cases h2 : earliest lat rest with
      | none =>
          rw [h2] at h
          have hx : timer = x := Option.some.inj h
          subst hx
          have hrest := earliest_eq_none lat rest h2
          subst hrest
          exact ⟨List.mem_cons_self _ _, fun y hy => by
            simp only [List.mem_singleton] at hy
            subst hy
            exact Nat.le_refl _⟩
      | some u =>
          rw [h2] at h
          simp only at h
          obtain ⟨hu1, hu2⟩ := ih u h2
          by_cases hle : runAt lat timer ≤ runAt lat u
          · rw [if_pos hle] at h
            have hx : timer = x := Option.some.inj h
            subst hx
            refine ⟨List.mem_cons_self _ _, fun y hy => ?_⟩
            rcases List.mem_cons.1 hy with rfl | hy
            · exact Nat.le_refl _
            · exact Nat.le_trans hle (hu2 y hy)
          · rw [if_neg hle] at h
            have hx : u = x := Option.some.inj h
            subst hx
            refine ⟨List.mem_cons_of_mem _ hu1, fun y hy => ?_⟩
            rcases List.mem_cons.1 hy with rfl | hy
            · omega
            · exact hu2 y hy

theorem mem_insertTimer (x tm : Timer) (l : List Timer) :
    tm ∈ insertTimer x l ↔ tm = x ∨ tm ∈ l := by
  induction l with
  | nil => simp [insertTimer]
  | cons u rest ih =>
      by_cases h : u.due ≤ x.due
      · simp only [insertTimer, h, if_true, List.mem_cons, ih]
        tauto
      · simp only [insertTimer, h, if_false, List.mem_cons]

theorem filter_insertTimer_neg (q : Timer → Bool) (x : Timer) (l : List Timer)
    (hq : q x = false) : (insertTimer x l).filter q = l.filter q := by
  induction l with
  | nil => simp [insertTimer, hq]
  | cons u rest ih =>
      by_cases h : u.due ≤ x.due
      · simp only [insertTimer, h, if_true, List.filter_cons, ih]
      · simp only [insertTimer, h, if_false, List.filter_cons, hq]
        simp

theorem filter_insertTimer_pos (q : Timer → Bool) (x : Timer) (l : List Timer)
    (hq : q x = true) (hl : l.filter q = []) : (insertTimer x l).filter q = [x] := by
  induction l with
  | nil => simp [insertTimer, hq]
  | cons u rest ih =>
      have hu : q u = false := by
        cases hqu : q u with
        | false => rfl
        | true => simp [List.filter_cons, hqu] at hl
      have hrest : rest.filter q = [] := by
        simpa [List.filter_cons, hu] using hl
      by_cases h : u.due ≤ x.due
      · simp only [insertTimer, h, if_true, List.filter_cons, hu, ih hrest]
        simp
      · simp only [insertTimer, h, if_false, List.filter_cons, hq, hu, hrest]
        simp

theorem filter_erase_neg (q : Timer → Bool) (x : Timer) (l : List Timer)
    (hq : q x = false) : (l.erase x).filter q = l.filter q := by
  induction l with
  | nil => rfl
  | cons u rest ih =>
      by_cases h : u = x
      · subst h
        simp [List.filter_cons, hq]
      · have h2 : (u == x) = false := by simpa using h
        rw [List.erase_cons, h2]
        simp only [Bool.false_eq_true, if_false, List.filter_cons, ih]

theorem filter_erase_pos (q : Timer → Bool) (x : Timer) (l : List Timer)
    (hl : l.filter q = [x]) : (l.erase x).filter q = [] := by
  induction l with
  | nil => simp at hl
  | cons u rest ih =>
      by_cases h : u = x
      · subst h
        cases hqu : q u with
        | false =>
            rw [List.filter_cons, hqu] at hl
            have : u ∈ rest.filter q := by
              simp only [Bool.false_eq_true, if_false] at hl
              rw [hl]; exact List.mem_singleton_self _
            have := (List.mem_filter.1 this).2
            rw [hqu] at this
            cases this
        | true =>
            rw [List.filter_cons, hqu] at hl
            simp only [if_true, List.cons.injEq, true_and] at hl
            simpa using hl
      · have h2 : (u == x) = false := by simpa using h
        rw [List.erase_cons, h2]
        cases hqu : q u with
        | false =>
            rw [List.filter_cons, hqu] at hl
            simp only [Bool.false_eq_true, if_false] at hl
            simp only [Bool.false_eq_true, if_false, List.filter_cons, hqu]
            exact ih hl
        | true =>
            rw [List.filter_cons, hqu] at hl
            simp only [if_true, List.cons.injEq] at hl
            exact absurd hl.1 h

theorem weightSum_insertTimer (x : Timer) (l : List Timer) :
    weightSum (insertTimer x l) = weightSum l + x.task.weight := by
  induction l with
  | nil => simp [insertTimer, weightSum]
  | cons u rest ih =>
      by_cases h : u.due ≤ x.due
      · simp only [weightSum, List.map_cons, List.sum_cons] at ih ⊢
        simp only [insertTimer, h, if_true, List.map_cons, List.sum_cons, ih]
        omega
      · simp only [weightSum, insertTimer, h, if_false, List.map_cons, List.sum_cons]
        omega

theorem weightSum_erase (x : Timer) (l : List Timer) (h : x ∈ l) :
    weightSum (l.erase x) + x.task.weight = weightSum l := by
  induction l with
  | nil => cases h
  | cons u rest ih =>
      by_cases hu : u = x
      · subst hu
        simp only [List.erase_cons_head, weightSum, List.map_cons, List.sum_cons]
        omega
      · have h2 : (u == x) = false := by simpa using hu
        have hx : x ∈ rest := by
          rcases List.mem_cons.1 h with rfl | hx
          · exact absurd rfl hu
          · exact hx
        have := ih hx
        rw [List.erase_cons, h2]
        simp only [weightSum, Bool.false_eq_true, if_false, List.map_cons, List.sum_cons] at this ⊢
        omega

theorem weight_pos (task : Task) : 1 ≤ task.weight := by
  cases task <;> simp [Task.weight]

theorem stage_congr (lat : Task → Nat) (i : Nat) (flash : Flash) (t : Nat) (p q : Page)
    (h1 : q.timers.filter (isFade i) = p.timers.filter (isFade i))
    (h2 : q.timers.filter (isRemove i) = p.timers.filter (isRemove i))
    (h3 : q.flashes.get? i = p.flashes.get? i) (h : FlashStage lat i flash t p) :
    FlashStage lat i flash t q := by
  unfold FlashStage at h ⊢
  rw [h1, h2, h3]
  exact h

theorem runDue_step (lat : Task → Nat) (t fuel : Nat) (p : Page) (x : Timer)
    (h : earliest lat p.timers = some x) (hle : runAt lat x ≤ t) :
    runDue lat t (fuel + 1) p =
      runDue lat t fuel
        (runTask x.task
          { p with now := max p.now (runAt lat x), timers := p.timers.erase x }) := by
  simp [runDue, h, hle]

theorem runDue_stop (lat : Task → Nat) (t fuel : Nat) (p : Page)
    (h : ∀ x, earliest lat p.timers = some x → t < runAt lat x) :
    runDue lat t fuel p = p := by
  cases fuel with
  | zero => rfl
  | succ fuel =>
      cases h2 : earliest lat p.timers with
      | none => simp [runDue, h2]
      | some x =>
          have h3 : ¬ runAt lat x ≤ t := Nat.not_le.2 (h x h2)
          simp [runDue, h2, h3]

/-- One callback run by the timer loop keeps flash `i` on its course, keeps
the clock no later than any pending callback, and uses up weight. -/
theorem runTask_stage (lat : Task → Nat) (i : Nat) (flash : Flash) (t : Nat) (p : Page)
    (x : Timer) (hx : x ∈ p.timers) (hmin : ∀ y ∈ p.timers, runAt lat x ≤ runAt lat y)
    (hle : runAt lat x ≤ t) (hnow : ∀ tm ∈ p.timers, p.now ≤ runAt lat tm)
    (hs : FlashStage lat i flash t p) :
    FlashStage lat i flash t
      (runTask x.task { p with now := max p.now (runAt lat x), timers := p.timers.erase x }) ∧
    (∀ tm ∈ (runTask x.task
        { p with now := max p.now (runAt lat x), timers := p.timers.erase x }).timers,
      (runTask x.task
        { p with now := max p.now (runAt lat x), timers := p.timers.erase x }).now ≤
        runAt lat tm) ∧
    weightSum (runTask x.task
      { p with now := max p.now (runAt lat x), timers := p.timers.erase x }).timers + 1 ≤
      weightSum p.timers := by
  have hmax : max p.now (runAt lat x) = runAt lat x := Nat.max_eq_right (hnow x hx)
  have hw := weightSum_erase x p.timers hx
  rw [hmax]
  obtain ⟨due, task⟩ := x
  cases task with
  | fade j =>
      simp only [runTask, setTimeout]
      refine ⟨?_, ?_, ?_⟩
      · by_cases hj : j = i
        · subst hj
          have hq1 : isFade j ⟨due, Task.fade j⟩ = true := by simp [isFade]
          have hq2 : isRemove j ⟨due, Task.fade j⟩ = false := by simp [isRemove]
          have hmem : (⟨due, Task.fade j⟩ : Timer) ∈ p.timers.filter (isFade j) :=
            List.mem_filter.2 ⟨hx, hq1⟩
          rcases hs with ⟨h1, h2, h3⟩ | ⟨h1, _⟩ | ⟨h1, _⟩
          · rw [h1, List.mem_singleton] at hmem
            have hdue : due = 1500 := by
              have := congrArg Timer.due hmem
              simpa using this
            subst hdue
            refine Or.inr (Or.inl ⟨?_, ?_, ?_, ?_⟩)
            · show (insertTimer _ _).filter (isFade j) = []
              rw [filter_insertTimer_neg _ _ _ (by simp [isFade])]
              exact filter_erase_pos _ _ _ h1
            · show (insertTimer _ _).filter (isRemove j) = _
              rw [filter_insertTimer_pos _ _ _ (by simp [isRemove])
                (by rw [filter_erase_neg _ _ _ hq2]; exact h2)]
              simp [runAt]
            · show (updateAt fadeStyle j p.flashes).get? j = _
              rw [get?_updateAt, if_pos rfl, h3]
              rfl
            · simpa [runAt] using hle
          · rw [h1] at hmem
            cases hmem
          · rw [h1] at hmem
            cases hmem
        · have hji : ¬ i = j := fun h => hj h.symm
          refine stage_congr lat i flash t p _ ?_ ?_ ?_ hs
          · show (insertTimer _ _).filter (isFade i) = _
            rw [filter_insertTimer_neg _ _ _ (by simp [isFade]),
              filter_erase_neg _ _ _ (by simp [isFade, hj])]
          · show (insertTimer _ _).filter (isRemove i) = _
            rw [filter_insertTimer_neg _ _ _ (by simp [isRemove, hj]),
              filter_erase_neg _ _ _ (by simp [isRemove])]
          · show (updateAt fadeStyle j p.flashes).get? i = _
            rw [get?_updateAt, if_neg hji]
      · intro tm htm
        show runAt lat ⟨due, Task.fade j⟩ ≤ runAt lat tm
        rcases (mem_insertTimer _ _ _).1 htm with rfl | htm
        · simp only [runAt]
          omega
        · exact hmin tm (List.mem_of_mem_erase htm)
      · show weightSum (insertTimer _ _) + 1 ≤ _
        rw [weightSum_insertTimer]
        simp only [Task.weight] at hw ⊢
        omega
  | remove j =>
      simp only [runTask]
      refine ⟨?_, ?_, ?_⟩
      · by_cases hj : j = i
        · subst hj
          have hq1 : isFade j ⟨due, Task.remove j⟩ = false := by simp [isFade]
          have hq2 : isRemove j ⟨due, Task.remove j⟩ = true := by simp [isRemove]
          have hmem : (⟨due, Task.remove j⟩ : Timer) ∈ p.timers.filter (isRemove j) :=
            List.mem_filter.2 ⟨hx, hq2⟩
          rcases hs with ⟨_, h2, _⟩ | ⟨h1, h2, h3, h4⟩ | ⟨_, h2, _⟩
          · rw [h2] at hmem
            cases hmem
          · rw [h2, List.mem_singleton] at hmem
            have hdue : due = 1500 + lat (Task.fade j) + 400 := by
              have := congrArg Timer.due hmem
              simpa using this
            subst hdue
            refine Or.inr (Or.inr ⟨?_, ?_, ?_, ?_⟩)
            · show (p.timers.erase _).filter (isFade j) = []
              rw [filter_erase_neg _ _ _ hq1]
              exact h1
            · show (p.timers.erase _).filter (isRemove j) = []
              exact filter_erase_pos _ _ _ h2
            · show (updateAt detach j p.flashes).get? j = _
              rw [get?_updateAt, if_pos rfl, h3]
              rfl
            · simpa [runAt] using hle
          · rw [h2] at hmem
            cases hmem
        · have hji : ¬ i = j := fun h => hj h.symm
          refine stage_congr lat i flash t p _ ?_ ?_ ?_ hs
          · show (p.timers.erase _).filter (isFade i) = _
            rw [filter_erase_neg _ _ _ (by simp [isFade])]
          · show (p.timers.erase _).filter (isRemove i) = _
            rw [filter_erase_neg _ _ _ (by simp [isRemove, hj])]
          · show (updateAt detach j p.flashes).get? i = _
            rw [get?_updateAt, if_neg hji]
      · intro tm htm
        show runAt lat ⟨due, Task.remove j⟩ ≤ runAt lat tm
        exact hmin tm (List.mem_of_mem_erase htm)
      · show weightSum (p.timers.erase _) + 1 ≤ _
        simp only [Task.weight] at hw
        omega

/-- With fuel for every pending callback, the timer loop keeps flash `i`
on its course and stops only when no pending callback runs at `t` or
before. -/
theorem runDue_stage (lat : Task → Nat) (i : Nat) (flash : Flash) (t : Nat) :
    ∀ (fuel : Nat) (p : Page), weightSum p.timers ≤ fuel →
      (∀ tm ∈ p.timers, p.now ≤ runAt lat tm) → FlashStage lat i flash t p →
      FlashStage lat i flash t (runDue lat t fuel p) ∧
      ∀ tm ∈ (runDue lat t fuel p).timers, t < runAt lat tm := by
  intro fuel
  induction fuel with
  | zero =>
      intro p hw _ hs
      refine ⟨hs, fun tm htm => ?_⟩
      have h1 := weightSum_erase tm p.timers htm
      have h2 := weight_pos tm.task
      omega
  | succ fuel ih =>
      intro p hw hnow hs
      cases he : earliest lat p.timers with
      | none =>
          rw [runDue_stop lat t _ p (by rw [he]; intro x hx; cases hx)]
          refine ⟨hs, fun tm htm => ?_⟩
          rw [earliest_eq_none lat p.timers he] at htm
          cases htm
      | some x =>
          obtain ⟨hx, hmin⟩ := earliest_some lat p.timers x he
          by_cases hle : runAt lat x ≤ t
          · rw [runDue_step lat t fuel p x he hle]
            obtain ⟨h1, h2, h3⟩ := runTask_stage lat i flash t p x hx hmin hle hnow hs
            exact ih _ (by omega) h2 h1
          · rw [runDue_stop lat t _ p (by
              rw [he]; intro y hy; cases hy; omega)]
            refine ⟨hs, fun tm htm => ?_⟩
            have := hmin tm htm
            omega

theorem mem_queryFlashes (dom : Dom) (loc : String) (i : Nat) (flash : Flash)
    (hi : dom.flashes.get? i = some flash) (ha : flash.attached = true) :
    i ∈ queryFlashes (Page.fresh dom loc) := by
  have hlt : i < dom.flashes.length := by
    rcases Nat.lt_or_ge i dom.flashes.length with h | h
    · exact h
    · rw [List.get?_eq_none.2 h] at hi
      cases hi
  simp only [queryFlashes, List.mem_filter, List.mem_range]
  refine ⟨hlt, ?_⟩
  show ((dom.flashes.get? i).any (fun f => f.attached)) = true
  rw [hi]
  simpa using ha

theorem nodup_queryFlashes (p : Page) : (queryFlashes p).Nodup :=
  List.Nodup.filter _ (List.nodup_range _)

theorem boot_timers (dom : Dom) (loc : String) :
    (boot dom loc).timers =
      (queryFlashes (Page.fresh dom loc)).map (fun i => ⟨1500, Task.fade i⟩) := by
  rw [boot_eq]

theorem boot_flashes (dom : Dom) (loc : String) : (boot dom loc).flashes = dom.flashes := by
  rw [boot_eq]

theorem boot_now (dom : Dom) (loc : String) : (boot dom loc).now = 0 := by
  rw [boot_eq]

theorem filter_isFade_fades (i : Nat) (js : List Nat) (hn : js.Nodup) :
    (js.map (fun j => (⟨1500, Task.fade j⟩ : Timer))).filter (isFade i) =
      if i ∈ js then [⟨1500, Task.fade i⟩] else [] := by
  induction js with
  | nil => rfl
  | cons j js ih =>
      have hn2 := List.nodup_cons.1 hn
      rw [List.map_cons, List.filter_cons, ih hn2.2]
      by_cases h : j = i
      · subst h
        simp [isFade, hn2.1]
      · have h2 : ¬ i = j := fun h3 => h h3.symm
        simp [isFade, h, h2]

theorem filter_isRemove_fades (i : Nat) (js : List Nat) :
    (js.map (fun j => (⟨1500, Task.fade j⟩ : Timer))).filter (isRemove i) = [] := by
  simp [List.filter_eq_nil_iff, isRemove]

/-- At the end of a page load every flash in the document is at the first
stage: its outer timer pending, due at 1500 ms, and the flash untouched. -/
theorem boot_stage (lat : Task → Nat) (dom : Dom) (loc : String) (i : Nat) (flash : Flash)
    (hi : dom.flashes.get? i = some flash) (ha : flash.attached = true) (t : Nat) :
    FlashStage lat i flash t (boot dom loc) := by
  refine Or.inl ⟨?_, ?_, ?_⟩
  · rw [boot_timers, filter_isFade_fades i _ (nodup_queryFlashes _),
      if_pos (mem_queryFlashes dom loc i flash hi ha)]
  · rw [boot_timers, filter_isRemove_fades]
  · rw [boot_flashes, hi]

/-- The state of flash `i` at time `t` after a page load, for any latency
of the host: untouched before the outer callback runs, faded and still in
the document from then until the inner callback runs, removed from then
on. -/
theorem flash_at (lat : Task → Nat) (dom : Dom) (loc : String) (i : Nat) (flash : Flash)
    (hi : dom.flashes.get? i = some flash) (ha : flash.attached = true) (t : Nat) :
    (t < 1500 + lat (Task.fade i) →
      (advanceTo lat t (boot dom loc)).flashes.get? i = some flash) ∧
    (1500 + lat (Task.fade i) ≤ t →
      t < 1500 + lat (Task.fade i) + 400 + lat (Task.remove i) →
      (advanceTo lat t (boot dom loc)).flashes.get? i = some (fadeStyle flash)) ∧
    (1500 + lat (Task.fade i) + 400 + lat (Task.remove i) ≤ t →
      (advanceTo lat t (boot dom loc)).flashes.get? i = some (detach (fadeStyle flash))) := by
  have hadv : (advanceTo lat t (boot dom loc)).flashes =
      (runDue lat t (weightSum (boot dom loc).timers) (boot dom loc)).flashes := rfl
  obtain ⟨hs, hlate⟩ := runDue_stage lat i flash t _ (boot dom loc) (Nat.le_refl _)
    (by intro tm _; rw [boot_now]; exact Nat.zero_le _) (boot_stage lat dom loc i flash hi ha t)
  rw [hadv]
  rcases hs with ⟨h1, _, h3⟩ | ⟨_, h2, h3, h4⟩ | ⟨_, _, h3, h4⟩
  · have hmem : (⟨1500, Task.fade i⟩ : Timer) ∈
        (runDue lat t (weightSum (boot dom loc).timers) (boot dom loc)).timers :=
      (List.mem_filter.1 (by rw [h1]; exact List.mem_singleton_self _)).1
    have := hlate _ hmem
    simp only [runAt] at this
    exact ⟨fun _ => h3, fun h _ => by omega, fun h => by omega⟩
  · have hmem : (⟨1500 + lat (Task.fade i) + 400, Task.remove i⟩ : Timer) ∈
        (runDue lat t (weightSum (boot dom loc).timers) (boot dom loc)).timers :=
      (List.mem_filter.1 (by rw [h2]; exact List.mem_singleton_self _)).1
    have := hlate _ hmem
    simp only [runAt] at this
    exact ⟨fun h => by omega, fun _ _ => h3, fun h => by omega⟩
  · exact ⟨fun h => by omega, fun _ h => by omega, fun _ => h3⟩

/-- C8 as stated fails when a callback runs later than its timer is due,
which is all `setTimeout` allows for.  With the outer callback of the
second flash of `demoDom` run 2 ms late, the fade has not started at
1500 ms, and the flash is still in the document at 1900 ms and at 1901 ms;
it is removed at 1902 ms. -/
theorem flash_late_callback_counterexample :
    (advanceTo lateFade 1500 (boot demoDom "/")).flashes.get? 1 = some ⟨true, "", "", ""⟩ ∧
    (advanceTo lateFade 1900 (boot demoDom "/")).flashes.get? 1 =
      some ⟨true, "0", "translateX(40px)", "all 0.4s ease"⟩ ∧
    (advanceTo lateFade 1901 (boot demoDom "/")).flashes.get? 1 =
      some ⟨true, "0", "translateX(40px)", "all 0.4s ease"⟩ ∧
    (advanceTo lateFade 1902 (boot demoDom "/")).flashes.get? 1 =
      some ⟨false, "0", "translateX(40px)", "all 0.4s ease"⟩ := by
  decide

/-- C8, amended: for every element of class `flash` in the document when
DOMContentLoaded fires at time 0, and whatever the latency with which the
host runs timer callbacks: the element is in the document and untouched at
every time before 1500 ms, and still in the document at every time before
1900 ms.  Its fade (opacity `"0"`, transition `"all 0.4s ease"`) starts
when the outer callback runs, at 1500 ms plus that callback's latency, so
no earlier than 1500 ms.  It is removed when the inner callback runs,
400 ms plus that callback's latency after the fade started, so no earlier
than 1900 ms, and is absent at every later time.  When both callbacks run
on time the fade starts at 1500 ms and the removal happens at 1900 ms. -/
theorem flash_removed_no_earlier_than_1900 (lat : Task → Nat) (dom : Dom) (loc : String)
    (i : Nat) (flash : Flash) (hi : dom.flashes.get? i = some flash)
    (ha : flash.attached = true) (t : Nat) :
    (t < 1500 → (advanceTo lat t (boot dom loc)).flashes.get? i = some flash) ∧
    (t < 1900 → ∃ f, (advanceTo lat t (boot dom loc)).flashes.get? i = some f ∧
      f.attached = true) ∧
    (t < 1500 + lat (Task.fade i) →
      (advanceTo lat t (boot dom loc)).flashes.get? i = some flash) ∧
    (1500 + lat (Task.fade i) ≤ t →
      t < 1500 + lat (Task.fade i) + 400 + lat (Task.remove i) →
      (advanceTo lat t (boot dom loc)).flashes.get? i =
        some ⟨true, "0", "translateX(40px)", "all 0.4s ease"⟩) ∧
    (1500 + lat (Task.fade i) + 400 + lat (Task.remove i) ≤ t →
      (advanceTo lat t (boot dom loc)).flashes.get? i =
        some ⟨false, "0", "translateX(40px)", "all 0.4s ease"⟩) ∧
    (lat (Task.fade i) = 0 → lat (Task.remove i) = 0 →
      (1500 ≤ t → t < 1900 → (advanceTo lat t (boot dom loc)).flashes.get? i =
        some ⟨true, "0", "translateX(40px)", "all 0.4s ease"⟩) ∧
      (1900 ≤ t → (advanceTo lat t (boot dom loc)).flashes.get? i =
        some ⟨false, "0", "translateX(40px)", "all 0.4s ease"⟩)) := by
  obtain ⟨h1, h2, h3⟩ := flash_at lat dom loc i flash hi ha t
  have hf : fadeStyle flash = ⟨true, "0", "translateX(40px)", "all 0.4s ease"⟩ := by
    simp [fadeStyle, ha]
  have hd : detach (fadeStyle flash) = ⟨false, "0", "translateX(40px)", "all 0.4s ease"⟩ := by
    simp [detach, fadeStyle]
  rw [hf] at h2
  rw [hd] at h3
  refine ⟨fun h => h1 (by omega), ?_, h1, h2, h3, ?_⟩
  · intro h
    by_cases hc : t < 1500 + lat (Task.fade i)
    · exact ⟨flash, h1 hc, ha⟩
    · exact ⟨_, h2 (by omega) (by omega), rfl⟩
  · intro hz1 hz2
    exact ⟨fun ha hb => h2 (by omega) (by omega), fun ha => h3 (by omega)⟩

theorem flash_removed_no_earlier_than_1900_witness :
    (advanceTo lateFade 1499 (boot demoDom "/")).flashes.get? 1 = some ⟨true, "", "", ""⟩ ∧
    (∃ f, (advanceTo lateFade 1899 (boot demoDom "/")).flashes.get? 1 = some f ∧
      f.attached = true) ∧
    (advanceTo lateFade 1501 (boot demoDom "/")).flashes.get? 1 = some ⟨true, "", "", ""⟩ ∧
    (advanceTo lateFade 1502 (boot demoDom "/")).flashes.get? 1 =
      some ⟨true, "0", "translateX(40px)", "all 0.4s ease"⟩ ∧
    (advanceTo lateFade 1902 (boot demoDom "/")).flashes.get? 1 =
      some ⟨false, "0", "translateX(40px)", "all 0.4s ease"⟩ ∧
    (advanceTo onTime 1500 (boot demoDom "/")).flashes.get? 1 =
      some ⟨true, "0", "translateX(40px)", "all 0.4s ease"⟩ ∧
    (advanceTo onTime 1900 (boot demoDom "/")).flashes.get? 1 =
      some ⟨false, "0", "translateX(40px)", "all 0.4s ease"⟩ :=
  ⟨(flash_removed_no_earlier_than_1900 lateFade demoDom "/" 1 ⟨true, "", "", ""⟩ rfl rfl
      1499).1 (by decide),
   (flash_removed_no_earlier_than_1900 lateFade demoDom "/" 1 ⟨true, "", "", ""⟩ rfl rfl
      1899).2.1 (by decide),
   (flash_removed_no_earlier_than_1900 lateFade demoDom "/" 1 ⟨true, "", "", ""⟩ rfl rfl
      1501).2.2.1 (by decide),
   (flash_removed_no_earlier_than_1900 lateFade demoDom "/" 1 ⟨true, "", "", ""⟩ rfl rfl
      1502).2.2.2.1 (by decide) (by decide),
   (flash_removed_no_earlier_than_1900 lateFade demoDom "/" 1 ⟨true, "", "", ""⟩ rfl rfl
      1902).2.2.2.2.1 (by decide),
   ((flash_removed_no_earlier_than_1900 onTime demoDom "/" 1 ⟨true, "", "", ""⟩ rfl rfl
      1500).2.2.2.2.2 rfl rfl).1 (by decide) (by decide),
   ((flash_removed_no_earlier_than_1900 onTime demoDom "/" 1 ⟨true, "", "", ""⟩ rfl rfl
      1900).2.2.2.2.2 rfl rfl).2 (by decide)⟩

/-! ## Absent elements -/

/-- C10 fails for `loadComponent`, which looks its container up without a
presence check: on `demoDom`, which has no element with id `navbar`, the
call `loadComponent("navbar", "navbar.html")` issues the request all the
same, and when the body arrives the assignment to `innerHTML` of `null`
raises a TypeError that nothing catches. -/
theorem loadComponent_missing_container_raises :
    getElementById "navbar" (boot demoDom "/") = none ∧
    (loadComponent "navbar" "navbar.html" (boot demoDom "/")).requests =
      [⟨"GET", "navbar.html"⟩] ∧
    (settleFetch id 0 (FetchOutcome.body "<nav></nav>")
      (loadComponent "navbar" "navbar.html" (boot demoDom "/"))).uncaught =
      ["TypeError: Cannot set properties of null (setting 'innerHTML')"] := by
  decide

/-- The guarded features degrade to a silent no-op: when an element a
feature looks up is absent, its set-up leaves the page as it was (no
listener bound, nothing changed, no error), and the user action that
would trigger it changes nothing either. -/
theorem guarded_features_noop_when_absent (lower : String → String) (p : Page) :
    (p.priceRange = none ∨ p.priceValue = none → onLoadPrice p = p) ∧
    (p.priceRange = none → ∀ v, inputPriceRange v p = p) ∧
    (p.contactForm = none → bindContactForm p = p ∧ submitContactForm p = p) ∧
    (p.userSearch = none → bindUserSearch p = p ∧ ∀ s, inputUserSearch lower s p = p) ∧
    (p.bookSearch = none → bindBookSearch p = p ∧ ∀ s, inputBookSearch lower s p = p) ∧
    (p.filterForm = none ∨ getElementById "booksGrid" p = none → onLoadFilterForm p = p) ∧
    (p.filterForm = none → submitFilterForm p = p) ∧
    (p.orderRows = [] → onLoadOrderRows p = p) ∧
    (p.flashes = [] → onLoadFlashes p = p) := by
  refine ⟨?_, ?_, ?_, ?_, ?_, ?_, ?_, ?_, ?_⟩
  · rintro (h | h)
    · simp [onLoadPrice, h]
    · unfold onLoadPrice
      cases p.priceRange <;> simp [h]
  · intro h v
    simp [inputPriceRange, h]
  · intro h
    simp [bindContactForm, submitContactForm, h]
  · intro h
    simp [bindUserSearch, inputUserSearch, h]
  · intro h
    simp [bindBookSearch, inputBookSearch, h]
  · rintro (h | h)
    · simp [onLoadFilterForm, h]
    · unfold onLoadFilterForm
      cases p.filterForm <;> simp [h]
  · intro h
    simp [submitFilterForm, h]
  · intro h
    simp [onLoadOrderRows, h]
  · intro h
    simp [onLoadFlashes, queryFlashes, h]

theorem guarded_features_noop_when_absent_witness :
    boot emptyDom "/" = Page.fresh emptyDom "/" ∧
    onLoadPrice (Page.fresh emptyDom "/") = Page.fresh emptyDom "/" ∧
    submitFilterForm (Page.fresh emptyDom "/") = Page.fresh emptyDom "/" :=
  ⟨by decide,
   (guarded_features_noop_when_absent asciiLower (Page.fresh emptyDom "/")).1 (Or.inl rfl),
   (guarded_features_noop_when_absent asciiLower (Page.fresh emptyDom "/")).2.2.2.2.2.2.1 rfl⟩

end Leafora

